import Mathlib

/-!
Verification of the bottle-rocket simulation core (`BottleRocketSim.jsx`).

The numerical core of the repository is embedded shallowly over `ℝ`: the
JavaScript program computes with IEEE-754 doubles, and the embedding is the
exact-real idealization of that arithmetic (`Math.pow` with real exponent
becomes `Real.rpow`, `Math.sqrt` becomes `Real.sqrt`, `Math.abs` becomes
`|·|`, `Math.floor` becomes `Int.floor`).  Comparisons on `ℝ` are resolved
classically, hence the `noncomputable` loop definitions.  One aspect of the
program that is genuinely float-sensitive — the accumulation `r += 0.02` that
drives the fill-ratio sweep of `findOptimal` — is additionally modelled
exactly over `ℚ` with round-to-nearest-even double rounding, in the
computable section at the end of the definitions.
-/

open scoped Classical

noncomputable section

namespace BottleRocket

/-! ### Physical constants (source: `CONSTANTS` object, lines 4–17) -/

namespace CONSTANTS

def g : ℝ := 9.81

def rho_air : ℝ := 1.225

def rho_water : ℝ := 1000

def P_atm : ℝ := 101325

def gamma : ℝ := 1.4

def tank_volume : ℝ := 8e-4

def d_bottle : ℝ := 0.075

def d_nozzle : ℝ := 0.026

def mass_empty : ℝ := 0.0765

end CONSTANTS

def A_bottle : ℝ := Real.pi * (CONSTANTS.d_bottle / 2) ^ (2 : ℕ)

def A_nozzle : ℝ := Real.pi * (CONSTANTS.d_nozzle / 2) ^ (2 : ℕ)

/-! ### RK4 integrator (source: `rk4Step`, lines 20–26)

The JavaScript `y.map((yi, i) => yi + c * k[i])` combines two equal-length
vectors element-wise; it is rendered with `List.zipWith`, which agrees with
the source whenever the derivative function returns vectors of the caller's
length (the contract stated by the spec). -/

def rk4Step {P : Type} (odes : ℝ → List ℝ → P → List ℝ) (t : ℝ) (y : List ℝ)
    (dt : ℝ) (params : P) : List ℝ :=
  let k1 := odes t y params
  let k2 := odes (t + dt / 2) (List.zipWith (fun yi k1i => yi + dt / 2 * k1i) y k1) params
  let k3 := odes (t + dt / 2) (List.zipWith (fun yi k2i => yi + dt / 2 * k2i) y k2) params
  let k4 := odes (t + dt) (List.zipWith (fun yi k3i => yi + dt * k3i) y k3) params
  List.zipWith (fun yi ki => yi + dt / 6 * ki) y
    (List.zipWith (fun a b => a + b)
      (List.zipWith (fun k1i k2i => k1i + 2 * k2i) k1 k2)
      (List.zipWith (fun k3i k4i => 2 * k3i + k4i) k3 k4))

/-- Element-wise vector sum, written the way the spec's §4.1 formula reads. -/
def vadd (xs ys : List ℝ) : List ℝ := List.zipWith (· + ·) xs ys

/-- Scalar multiple of a vector, written the way the spec's §4.1 formula reads. -/
def smulV (c : ℝ) (xs : List ℝ) : List ℝ := xs.map (fun x => c * x)

/-- The classical four-stage Runge-Kutta update exactly as displayed in the
spec (§4.1): `y + dt/6·(k1 + 2k2 + 2k3 + k4)` with the four stage vectors.
This is the refinement target `rk4Step` is compared against in claim C1. -/
def rk4SpecStep {P : Type} (f : ℝ → List ℝ → P → List ℝ) (t : ℝ) (y : List ℝ)
    (dt : ℝ) (params : P) : List ℝ :=
  let k1 := f t y params
  let k2 := f (t + dt / 2) (vadd y (smulV (dt / 2) k1)) params
  let k3 := f (t + dt / 2) (vadd y (smulV (dt / 2) k2)) params
  let k4 := f (t + dt) (vadd y (smulV dt k3)) params
  vadd y (smulV (dt / 6) (vadd (vadd k1 (smulV 2 k2)) (vadd (smulV 2 k3) k4)))

/-! ### Rocket ODEs (source: `rocketODEs`, lines 29–56)

State vector `y = [v, h, m, V_water]`. -/

structure RocketParams where
  V_air_0 : ℝ
  C_d : ℝ
  P_0_abs : ℝ

def rocketODEs (_t : ℝ) (y : List ℝ) (params : RocketParams) : List ℝ :=
  match y with
  | v :: _h :: m :: V_water :: _ =>
    let drag_accel := -0.5 * CONSTANTS.rho_air * params.C_d * A_bottle * v * |v| / m
    if V_water ≤ 0 then
      [-CONSTANTS.g + drag_accel, v, 0, 0]
    else
      let V_air := CONSTANTS.tank_volume - V_water
      let P_1 := params.P_0_abs * (params.V_air_0 / V_air) ^ CONSTANTS.gamma
      let delta_P := P_1 - CONSTANTS.P_atm
      if delta_P ≤ 0 then
        [-CONSTANTS.g + drag_accel, v, 0, 0]
      else
        let denom := CONSTANTS.rho_water * (1 - (CONSTANTS.d_nozzle / CONSTANTS.d_bottle) ^ (4 : ℕ))
        let v_e := Real.sqrt (2 * delta_P / denom)
        let dV_water_dt := -A_nozzle * v_e
        let dm_dt := CONSTANTS.rho_water * dV_water_dt
        let thrust_accel := CONSTANTS.rho_water * A_nozzle * v_e * v_e / m
        let dv_dt := thrust_accel - CONSTANTS.g + drag_accel
        [dv_dt, v, dm_dt, dV_water_dt]
  | _ => []

/-- The Bernoulli denominator `ρ_water · (1 − (d_nozzle/d_bottle)^4)` of the
nozzle exit-velocity formula. -/
def denomC : ℝ := CONSTANTS.rho_water * (1 - (CONSTANTS.d_nozzle / CONSTANTS.d_bottle) ^ (4 : ℕ))

/-- The water-volume derivative of `rocketODEs` as a function of the water
volume alone (it depends on no other state component). -/
def dWater (params : RocketParams) (w : ℝ) : ℝ :=
  if w ≤ 0 then 0
  else
    let P_1 := params.P_0_abs * (params.V_air_0 / (CONSTANTS.tank_volume - w)) ^ CONSTANTS.gamma
    if P_1 - CONSTANTS.P_atm ≤ 0 then 0
    else -A_nozzle * Real.sqrt (2 * (P_1 - CONSTANTS.P_atm) / denomC)

/-- The velocity derivative of `rocketODEs` as a function of velocity, mass and
water volume. -/
def dVel (params : RocketParams) (v m w : ℝ) : ℝ :=
  let drag_accel := -0.5 * CONSTANTS.rho_air * params.C_d * A_bottle * v * |v| / m
  if w ≤ 0 then -CONSTANTS.g + drag_accel
  else
    let P_1 := params.P_0_abs * (params.V_air_0 / (CONSTANTS.tank_volume - w)) ^ CONSTANTS.gamma
    if P_1 - CONSTANTS.P_atm ≤ 0 then -CONSTANTS.g + drag_accel
    else
      let v_e := Real.sqrt (2 * (P_1 - CONSTANTS.P_atm) / denomC)
      CONSTANTS.rho_water * A_nozzle * v_e * v_e / m - CONSTANTS.g + drag_accel

/-! Stage values of one RK4 step of `rocketODEs`.  The altitude component
feeds back into no derivative, and the water component evolves autonomously,
so the stages are recorded as functions of `(v, m, w)` resp. `w` alone. -/

def w2of (p : RocketParams) (dt w : ℝ) : ℝ := w + dt / 2 * dWater p w

def w3of (p : RocketParams) (dt w : ℝ) : ℝ := w + dt / 2 * dWater p (w2of p dt w)

def w4of (p : RocketParams) (dt w : ℝ) : ℝ := w + dt * dWater p (w3of p dt w)

def v2of (p : RocketParams) (dt v m w : ℝ) : ℝ := v + dt / 2 * dVel p v m w

def m2of (p : RocketParams) (dt m w : ℝ) : ℝ :=
  m + dt / 2 * (CONSTANTS.rho_water * dWater p w)

def v3of (p : RocketParams) (dt v m w : ℝ) : ℝ :=
  v + dt / 2 * dVel p (v2of p dt v m w) (m2of p dt m w) (w2of p dt w)

def m3of (p : RocketParams) (dt m w : ℝ) : ℝ :=
  m + dt / 2 * (CONSTANTS.rho_water * dWater p (w2of p dt w))

def v4of (p : RocketParams) (dt v m w : ℝ) : ℝ :=
  v + dt * dVel p (v3of p dt v m w) (m3of p dt m w) (w3of p dt w)

def m4of (p : RocketParams) (dt m w : ℝ) : ℝ :=
  m + dt * (CONSTANTS.rho_water * dWater p (w3of p dt w))

/-- The water-volume component of one RK4 step, as a recursion on the water
volume alone. -/
def wStep (p : RocketParams) (dt w : ℝ) : ℝ :=
  w + dt / 6 * (dWater p w + 2 * dWater p (w2of p dt w) + 2 * dWater p (w3of p dt w)
    + dWater p (w4of p dt w))

/-! ### Simulation loop (source: `runSimulation`, lines 59–98) -/

structure TrajPoint where
  t : ℝ
  h : ℝ
  v : ℝ

structure SimAcc where
  y : List ℝ
  t : ℝ
  trajectory : List TrajPoint
  maxH : ℝ
  maxHTime : ℝ
  burnoutTime : Option ℝ
  burnoutAlt : Option ℝ
  burnoutVel : Option ℝ

def simParams (fillRatio C_d pressurePSI : ℝ) : RocketParams :=
  let V_water_0 := fillRatio * CONSTANTS.tank_volume
  ⟨CONSTANTS.tank_volume - V_water_0, C_d, pressurePSI * 6894.76 + CONSTANTS.P_atm⟩

def simInit (fillRatio : ℝ) : SimAcc :=
  let V_water_0 := fillRatio * CONSTANTS.tank_volume
  let m_0 := CONSTANTS.mass_empty + CONSTANTS.rho_water * V_water_0
  ⟨[0, 0, m_0, V_water_0], 0, [⟨0, 0, 0⟩], 0, 0, none, none, none⟩

/-- One iteration of the `while` body of `runSimulation` (lines 78–94):
advance the state by one RK4 step, advance time by `dt = 0.002`, then record
burnout (first time `y[3] ≤ 0`), the running altitude maximum, and — whenever
`⌊t·200⌋` increases — a trajectory sample with its altitude clamped to `≥ 0`. -/
def simBody (params : RocketParams) (acc : SimAcc) : SimAcc :=
  let y' := rk4Step rocketODEs acc.t acc.y 0.002 params
  let t' := acc.t + 0.002
  let hitBurnout := y'.getD 3 0 ≤ 0 ∧ acc.burnoutTime = none
  let newMax := acc.maxH < y'.getD 1 0
  let emit := ⌊(t' - 0.002) * 200⌋ < ⌊t' * 200⌋
  { y := y'
    t := t'
    trajectory :=
      if emit then acc.trajectory ++ [⟨t', max 0 (y'.getD 1 0), y'.getD 0 0⟩]
      else acc.trajectory
    maxH := if newMax then y'.getD 1 0 else acc.maxH
    maxHTime := if newMax then t' else acc.maxHTime
    burnoutTime := if hitBurnout then some t' else acc.burnoutTime
    burnoutAlt := if hitBurnout then some (y'.getD 1 0) else acc.burnoutAlt
    burnoutVel := if hitBurnout then some (y'.getD 0 0) else acc.burnoutVel }

/-- The `while` guard of line 77: `t < 15 && y[1] >= 0`. -/
def simGuard (acc : SimAcc) : Prop := acc.t < 15 ∧ 0 ≤ acc.y.getD 1 0

/-- Fuel-bounded rendering of the `while` loop.  The guard `t < 15` with
`t = n · 0.002` fails after at most 7500 iterations, so any fuel `≥ 7501`
yields the loop's true fixpoint (`simLoop_stop` below). -/
def simLoop (params : RocketParams) : ℕ → SimAcc → SimAcc
  | 0, acc => acc
  | fuel + 1, acc => if simGuard acc then simLoop params fuel (simBody params acc) else acc

def runSimulation (fillRatio C_d pressurePSI : ℝ) : SimAcc :=
  simLoop (simParams fillRatio C_d pressurePSI) 7501 (simInit fillRatio)

/-- The accumulator after `n` unconditional iterations of the loop body. -/
def stepN (fillRatio C_d pressurePSI : ℝ) (n : ℕ) : SimAcc :=
  (simBody (simParams fillRatio C_d pressurePSI))^[n] (simInit fillRatio)

/-- The number of loop-body iterations `runSimulation` actually executes:
the least `n` at which the guard fails (it exists because the guard forces
`t = n·0.002 < 15`). -/
def stopIndex (fillRatio C_d pressurePSI : ℝ) : ℕ :=
  Nat.find (p := fun n => ¬ simGuard (stepN fillRatio C_d pressurePSI n))
    (by
      refine ⟨7500, ?_⟩
      have ht : ∀ n : ℕ, (stepN fillRatio C_d pressurePSI n).t = n * 0.002 := by
        intro n
        induction n with
        | zero => simp [stepN, simInit]
        | succ k ih =>
            rw [stepN, Function.iterate_succ_apply']
            show (simBody _ _).t = _
            rw [simBody]
            show (stepN fillRatio C_d pressurePSI k).t + 0.002 = _
            rw [ih]; push_cast; ring
      intro hg
      rw [simGuard, ht 7500] at hg
      norm_num at hg)

def velOf (acc : SimAcc) : ℝ := acc.y.getD 0 0

def altOf (acc : SimAcc) : ℝ := acc.y.getD 1 0

def massOf (acc : SimAcc) : ℝ := acc.y.getD 2 0

def wOf (acc : SimAcc) : ℝ := acc.y.getD 3 0

/-- The trajectory-sampling condition of line 92 at step `n ≥ 1`: with
`t = n·0.002`, the code emits a sample when `⌊t·200⌋ > ⌊(t−dt)·200⌋`. -/
def sampleCond (n : ℕ) : Prop :=
  ⌊((n : ℝ) * 0.002 - 0.002) * 200⌋ < ⌊((n : ℝ) * 0.002) * 200⌋

/-- Indices of the loop steps at which `runSimulation` emits a trajectory
sample (the init sample at index 0 excluded). -/
def sampledIdx (fillRatio C_d pressurePSI : ℝ) : List ℕ :=
  (List.range' 1 (stopIndex fillRatio C_d pressurePSI)).filter fun n => decide (sampleCond n)

/-- The raw (unclamped) observation of the integration state at step `n`. -/
def sampleAt (fillRatio C_d pressurePSI : ℝ) (n : ℕ) : TrajPoint :=
  ⟨(stepN fillRatio C_d pressurePSI n).t, altOf (stepN fillRatio C_d pressurePSI n),
    velOf (stepN fillRatio C_d pressurePSI n)⟩

/-! ### Optimizer (source: `findOptimal`, lines 101–116) -/

structure OptSample where
  ratio : ℝ
  maxH : ℝ

structure OptResult where
  bestRatio : ℝ
  bestH : ℝ
  data : List OptSample

/-- Fuel-bounded rendering of the `for (let r = 0.05; r <= 0.95; r += 0.02)`
sweep.  In exact arithmetic the bound fails after 46 iterations, so any fuel
`≥ 47` yields the loop's true result. -/
def optLoop (C_d pressurePSI : ℝ) : ℕ → ℝ → ℝ → ℝ → List OptSample → OptResult
  | 0, _, bestRatio, bestH, data => ⟨bestRatio, bestH, data⟩
  | fuel + 1, r, bestRatio, bestH, data =>
    if r ≤ 0.95 then
      let mH := (runSimulation r C_d pressurePSI).maxH
      let data' := data ++ [⟨r, mH⟩]
      if bestH < mH then optLoop C_d pressurePSI fuel (r + 0.02) r mH data'
      else optLoop C_d pressurePSI fuel (r + 0.02) bestRatio bestH data'
    else ⟨bestRatio, bestH, data⟩

def findOptimal (C_d pressurePSI : ℝ) : OptResult :=
  optLoop C_d pressurePSI 100 0.05 0.33 0 []

/-- The fill-ratio grid of the sweep in exact arithmetic:
`{0.05, 0.07, …, 0.95}` (46 points). -/
def gridPts : List ℝ := (List.range 46).map fun k : ℕ => 0.05 + 0.02 * (k : ℝ)

/-- The sample list produced by the sweep, as a standalone recursion (used to
factor `optLoop` into data collection plus a fold). -/
def sweepData (C_d pressurePSI : ℝ) : ℕ → ℝ → List OptSample
  | 0, _ => []
  | fuel + 1, r =>
    if r ≤ 0.95 then ⟨r, (runSimulation r C_d pressurePSI).maxH⟩ :: sweepData C_d pressurePSI fuel (r + 0.02)
    else []

/-- The best-pair tracking of `findOptimal` as a left fold with strict `>`
update (first maximum wins). -/
def bestFold (init : ℝ × ℝ) (l : List OptSample) : ℝ × ℝ :=
  l.foldl (fun b s => if b.2 < s.maxH then (s.ratio, s.maxH) else b) init

/-! ### Adversarial parameter values used by the concrete counterexamples.

`psiTiny` makes the stage-1 nozzle exit velocity exactly `1` (the pressure
ratio at the initial state is exactly `1`, so the adiabatic `rpow` is exact),
and `fillTiny` provides so little water that the very first RK4 step
overshoots the water volume below zero.  `psiMicro` scales the exit velocity
down to `10⁻³`, so that with any grid fill ratio the tank pressure provably
equalizes within the first step and the rocket never lifts off. -/

def psiTiny : ℝ := 1000 * (1 - (0.026 / 0.075) ^ (4 : ℕ)) / (2 * 6894.76)

def fillTiny : ℝ := 1e-4

def psiMicro : ℝ := 1000 * (1 - (0.026 / 0.075) ^ (4 : ℕ)) * 1e-6 / (2 * 6894.76)

end BottleRocket

end

/-! ### Exact model of the IEEE-754 double accumulation in `findOptimal`'s
loop head `for (let r = 0.05; r <= 0.95; r += 0.02)`.

All values reached by the loop head lie in `[1/32, 1)`.  In that range a
double is precisely an integer multiple of `2⁻⁵⁸` (the binade `[2⁻⁵, 2⁻⁴)`
has unit-in-the-last-place `2⁻⁵⁷`, coarser binades correspondingly more), so
the model represents the double of value `v` by the integer `v·2⁵⁸` and
`addDouble` is IEEE-754 double addition (round to nearest, ties to even) on
that representation; `dblVal` recovers the rational value.  The constants are
the exact scaled values of the doubles `0.05`, `0.02`, `0.95` and `0.33`. -/

namespace BottleRocket

/-- The rational value of a scaled double representation. -/
def dblVal (n : ℤ) : ℚ := (n : ℚ) / 2 ^ 58

/-- Unit in the last place, in the `2⁻⁵⁸`-scaled representation, of a double
in `[1/32, 1)`. -/
def ulp64 (q : ℤ) : ℤ :=
  if q < 2 ^ 54 then 2
  else if q < 2 ^ 55 then 4
  else if q < 2 ^ 56 then 8
  else if q < 2 ^ 57 then 16
  else 32

/-- Round to nearest multiple of the ulp, ties to even, for a non-negative
scaled value (`·/·` and `·%·` on non-negative integers are exact floor
division and remainder). -/
def roundNearestEven (q : ℤ) : ℤ :=
  let u := ulp64 q
  let n := q / u
  let r := q % u
  if 2 * r < u then n * u
  else if u < 2 * r then (n + 1) * u
  else if n % 2 = 0 then n * u else (n + 1) * u

def addDouble (a b : ℤ) : ℤ := roundNearestEven (a + b)

/-- The double `0.05`, scaled: `0.05 = 3602879701896397·2⁻⁵⁶`. -/
def d005 : ℤ := 3602879701896397 * 4

/-- The double `0.02`, scaled: `0.02 = 5764607523034235·2⁻⁵⁸`. -/
def d002 : ℤ := 5764607523034235

/-- The double `0.95`, scaled: `0.95 = 4278419646001971·2⁻⁵²` (slightly
above the rational `19/20`). -/
def d095 : ℤ := 4278419646001971 * 64

/-- The double `0.33`, scaled. -/
def d033 : ℤ := 95116024130064880

/-- The sequence of fill ratios actually evaluated by the JavaScript loop
`for (let r = 0.05; r <= 0.95; r += 0.02)` under IEEE-754 double
arithmetic, in the scaled representation. -/
def floatGridAux : ℕ → ℤ → List ℤ
  | 0, _ => []
  | fuel + 1, r => if r ≤ d095 then r :: floatGridAux fuel (addDouble r d002) else []

def floatGrid : List ℤ := floatGridAux 100 d005

end BottleRocket

/-! ## Infrastructure lemmas -/

namespace BottleRocket

lemma rocketODEs_eq (t v h m w : ℝ) (rest : List ℝ) (p : RocketParams) :
    rocketODEs t (v :: h :: m :: w :: rest) p =
      [dVel p v m w, v, CONSTANTS.rho_water * dWater p w, dWater p w] := by
  simp only [rocketODEs, dVel, dWater, denomC]
  split_ifs <;> simp

lemma simBody_t (P : RocketParams) (acc : SimAcc) : (simBody P acc).t = acc.t + 0.002 := rfl

lemma simBody_y (P : RocketParams) (acc : SimAcc) :
    (simBody P acc).y = rk4Step rocketODEs acc.t acc.y 0.002 P := rfl

lemma rk4Step_rocket (p : RocketParams) (t dt v h m w : ℝ) :
    rk4Step rocketODEs t [v, h, m, w] dt p =
      [v + dt / 6 * (dVel p v m w + 2 * dVel p (v2of p dt v m w) (m2of p dt m w) (w2of p dt w)
          + (2 * dVel p (v3of p dt v m w) (m3of p dt m w) (w3of p dt w)
          + dVel p (v4of p dt v m w) (m4of p dt m w) (w4of p dt w))),
        h + dt / 6 * (v + 2 * v2of p dt v m w + (2 * v3of p dt v m w + v4of p dt v m w)),
        m + dt / 6 * (CONSTANTS.rho_water * dWater p w
          + 2 * (CONSTANTS.rho_water * dWater p (w2of p dt w))
          + (2 * (CONSTANTS.rho_water * dWater p (w3of p dt w))
          + CONSTANTS.rho_water * dWater p (w4of p dt w))),
        w + dt / 6 * (dWater p w + 2 * dWater p (w2of p dt w)
          + (2 * dWater p (w3of p dt w) + dWater p (w4of p dt w)))] := by
  simp only [rk4Step, rocketODEs_eq, List.zipWith, v2of, m2of, w2of, v3of, m3of, w3of,
    v4of, m4of, w4of]

lemma stepN_succ (f c p : ℝ) (n : ℕ) :
    stepN f c p (n + 1) = simBody (simParams f c p) (stepN f c p n) := by
  rw [stepN, stepN, Function.iterate_succ_apply']

lemma stepN_zero (f c p : ℝ) : stepN f c p 0 = simInit f := rfl

lemma stepN_t (f c p : ℝ) (n : ℕ) : (stepN f c p n).t = n * 0.002 := by
  induction n with
  | zero => simp [stepN, simInit]
  | succ k ih => rw [stepN_succ, simBody_t, ih]; push_cast; ring

lemma stepN_shape (f c p : ℝ) (n : ℕ) :
    ∃ a b cc d, (stepN f c p n).y = [a, b, cc, d] := by
  induction n with
  | zero => exact ⟨_, _, _, _, rfl⟩
  | succ k ih =>
      obtain ⟨a, b, cc, d, hy⟩ := ih
      rw [stepN_succ, simBody_y, hy, rk4Step_rocket]
      exact ⟨_, _, _, _, rfl⟩

lemma stepN_y (f c p : ℝ) (n : ℕ) :
    (stepN f c p n).y =
      [velOf (stepN f c p n), altOf (stepN f c p n), massOf (stepN f c p n),
        wOf (stepN f c p n)] := by
  obtain ⟨a, b, cc, d, hy⟩ := stepN_shape f c p n
  rw [velOf, altOf, massOf, wOf, hy]
  simp

lemma wOf_succ (f c p : ℝ) (n : ℕ) :
    wOf (stepN f c p (n + 1)) = wStep (simParams f c p) 0.002 (wOf (stepN f c p n)) := by
  rw [stepN_succ]
  show (simBody _ _).y.getD 3 0 = _
  rw [simBody_y, stepN_y, rk4Step_rocket, wStep]
  simp only [List.getD_cons_succ, List.getD_cons_zero]
  ring

lemma massOf_succ (f c p : ℝ) (n : ℕ) :
    massOf (stepN f c p (n + 1)) =
      massOf (stepN f c p n)
        + CONSTANTS.rho_water * (wStep (simParams f c p) 0.002 (wOf (stepN f c p n))
            - wOf (stepN f c p n)) := by
  rw [stepN_succ]
  show (simBody _ _).y.getD 2 0 = _
  rw [simBody_y, stepN_y, rk4Step_rocket, wStep]
  simp only [List.getD_cons_succ, List.getD_cons_zero]
  ring

end BottleRocket

/-! ## Water and mass lemmas -/

namespace BottleRocket

lemma A_nozzle_pos : 0 < A_nozzle := by
  have := Real.pi_pos
  rw [A_nozzle, CONSTANTS.d_nozzle]
  positivity

lemma A_bottle_pos : 0 < A_bottle := by
  have := Real.pi_pos
  rw [A_bottle, CONSTANTS.d_bottle]
  positivity

lemma dWater_nonpos (p : RocketParams) (w : ℝ) : dWater p w ≤ 0 := by
  simp only [dWater]
  split_ifs with h1 h2
  · exact le_refl 0
  · exact le_refl 0
  · have hs := Real.sqrt_nonneg (2 * (p.P_0_abs * (p.V_air_0 / (CONSTANTS.tank_volume - w)) ^ CONSTANTS.gamma - CONSTANTS.P_atm) / denomC)
    have := A_nozzle_pos
    nlinarith

lemma dWater_of_nonpos (p : RocketParams) (w : ℝ) (h : w ≤ 0) : dWater p w = 0 := by
  rw [dWater, if_pos h]

lemma wStep_le (p : RocketParams) (dt w : ℝ) (hdt : 0 ≤ dt) : wStep p dt w ≤ w := by
  have h1 := dWater_nonpos p w
  have h2 := dWater_nonpos p (w2of p dt w)
  have h3 := dWater_nonpos p (w3of p dt w)
  have h4 := dWater_nonpos p (w4of p dt w)
  rw [wStep]
  nlinarith

lemma wStep_of_nonpos (p : RocketParams) (dt w : ℝ) (h : w ≤ 0) : wStep p dt w = w := by
  have e1 : dWater p w = 0 := dWater_of_nonpos p w h
  have e2 : w2of p dt w = w := by rw [w2of, e1]; ring
  have e3 : w3of p dt w = w := by rw [w3of, e2, e1]; ring
  have e4 : w4of p dt w = w := by rw [w4of, e3, e1]; ring
  rw [wStep, e2, e3, e4, e1]
  ring

lemma wOf_zero (f c p : ℝ) : wOf (stepN f c p 0) = f * CONSTANTS.tank_volume := by
  simp [stepN, simInit, wOf]

lemma massOf_zero (f c p : ℝ) :
    massOf (stepN f c p 0) = CONSTANTS.mass_empty + CONSTANTS.rho_water * (f * CONSTANTS.tank_volume) := by
  simp [stepN, simInit, massOf]

lemma wOf_mono (f c p : ℝ) (n : ℕ) : wOf (stepN f c p (n + 1)) ≤ wOf (stepN f c p n) := by
  rw [wOf_succ]
  exact wStep_le _ _ _ (by norm_num)

lemma wOf_frozen (f c p : ℝ) (n : ℕ) (h : wOf (stepN f c p n) ≤ 0) :
    ∀ k : ℕ, wOf (stepN f c p (n + k)) = wOf (stepN f c p n) := by
  intro k
  induction k with
  | zero => rfl
  | succ j ih =>
      have : wOf (stepN f c p (n + j)) ≤ 0 := by rw [ih]; exact h
      rw [show n + (j + 1) = n + j + 1 by ring, wOf_succ, wStep_of_nonpos _ _ _ this, ih]

lemma massOf_inv (f c p : ℝ) (n : ℕ) :
    massOf (stepN f c p n) = CONSTANTS.mass_empty + CONSTANTS.rho_water * wOf (stepN f c p n) := by
  induction n with
  | zero => rw [massOf_zero, wOf_zero]
  | succ k ih => rw [massOf_succ, wOf_succ, ih]; ring

lemma massOf_mono (f c p : ℝ) (n : ℕ) :
    massOf (stepN f c p (n + 1)) ≤ massOf (stepN f c p n) := by
  rw [massOf_succ]
  have h1 := wStep_le (simParams f c p) 0.002 (wOf (stepN f c p n)) (by norm_num)
  have h2 : (0 : ℝ) < CONSTANTS.rho_water := by rw [CONSTANTS.rho_water]; norm_num
  nlinarith

/-! ## Loop and stop-index lemmas -/

lemma guard_zero (f c p : ℝ) : simGuard (stepN f c p 0) := by
  constructor
  · rw [stepN_t]; norm_num
  · simp [stepN, simInit]

lemma not_guard_7500 (f c p : ℝ) : ¬ simGuard (stepN f c p 7500) := by
  intro hg
  have := hg.1
  rw [stepN_t] at this
  norm_num at this

lemma stopIndex_le (f c p : ℝ) : stopIndex f c p ≤ 7500 :=
  Nat.find_le (not_guard_7500 f c p)

lemma not_guard_stop (f c p : ℝ) : ¬ simGuard (stepN f c p (stopIndex f c p)) :=
  Nat.find_spec (⟨7500, not_guard_7500 f c p⟩ : ∃ n, ¬ simGuard (stepN f c p n))

lemma guard_of_lt (f c p : ℝ) (n : ℕ) (h : n < stopIndex f c p) : simGuard (stepN f c p n) := by
  have h2 := Nat.find_min (⟨7500, not_guard_7500 f c p⟩ : ∃ n, ¬ simGuard (stepN f c p n)) h
  exact not_not.mp h2

lemma stopIndex_pos (f c p : ℝ) : 0 < stopIndex f c p := by
  rcases Nat.eq_zero_or_pos (stopIndex f c p) with h | h
  · exfalso
    have hn := not_guard_stop f c p
    rw [h] at hn
    exact hn (guard_zero f c p)
  · exact h

lemma simLoop_eq_iterate (P : RocketParams) :
    ∀ (n fuel : ℕ) (acc : SimAcc), n ≤ fuel →
      (∀ k, k < n → simGuard ((simBody P)^[k] acc)) →
      ¬ simGuard ((simBody P)^[n] acc) →
      simLoop P fuel acc = (simBody P)^[n] acc := by
  intro n
  induction n with
  | zero =>
      intro fuel acc _ _ hstop
      simp only [Function.iterate_zero_apply] at hstop ⊢
      cases fuel with
      | zero => rfl
      | succ f => rw [simLoop, if_neg hstop]
  | succ m ih =>
      intro fuel acc hle hall hstop
      have g0 : simGuard acc := by
        have := hall 0 (Nat.succ_pos m)
        simpa using this
      cases fuel with
      | zero => omega
      | succ f =>
          rw [simLoop, if_pos g0]
          have h1 : ∀ k, k < m → simGuard ((simBody P)^[k] (simBody P acc)) := by
            intro k hk
            rw [← Function.iterate_succ_apply]
            exact hall (k + 1) (Nat.succ_lt_succ hk)
          have h2 : ¬ simGuard ((simBody P)^[m] (simBody P acc)) := by
            rw [← Function.iterate_succ_apply]
            exact hstop
          exact ih f (simBody P acc) (by omega) h1 h2

lemma runSimulation_eq_stepN (f c p : ℝ) :
    runSimulation f c p = stepN f c p (stopIndex f c p) := by
  rw [runSimulation]
  exact simLoop_eq_iterate (simParams f c p) (stopIndex f c p) 7501 (simInit f)
    (le_trans (stopIndex_le f c p) (by norm_num))
    (fun k hk => guard_of_lt f c p k hk)
    (not_guard_stop f c p)

end BottleRocket

/-! ## Event and trajectory characterization -/

namespace BottleRocket

lemma simBody_burnoutTime (P : RocketParams) (acc : SimAcc) :
    (simBody P acc).burnoutTime =
      if wOf (simBody P acc) ≤ 0 ∧ acc.burnoutTime = none
      then some (acc.t + 0.002) else acc.burnoutTime := rfl

lemma simBody_trajectory (P : RocketParams) (acc : SimAcc) :
    (simBody P acc).trajectory =
      if ⌊(acc.t + 0.002 - 0.002) * 200⌋ < ⌊(acc.t + 0.002) * 200⌋
      then acc.trajectory ++ [⟨acc.t + 0.002, max 0 (altOf (simBody P acc)), velOf (simBody P acc)⟩]
      else acc.trajectory := rfl

lemma burnout_step_time (f c p : ℝ) (n : ℕ) :
    (stepN f c p (n + 1)).burnoutTime =
      if wOf (stepN f c p (n + 1)) ≤ 0 ∧ (stepN f c p n).burnoutTime = none
      then some (((n : ℝ) + 1) * 0.002) else (stepN f c p n).burnoutTime := by
  rw [stepN_succ, simBody_burnoutTime, stepN_t]
  have he : ((n : ℝ) * 0.002 + 0.002) = ((n : ℝ) + 1) * 0.002 := by ring
  rw [he]

lemma burnout_step_alt (f c p : ℝ) (n : ℕ) :
    (stepN f c p (n + 1)).burnoutAlt =
      if wOf (stepN f c p (n + 1)) ≤ 0 ∧ (stepN f c p n).burnoutTime = none
      then some (altOf (stepN f c p (n + 1))) else (stepN f c p n).burnoutAlt := by
  rw [stepN_succ]
  rfl

lemma burnout_step_vel (f c p : ℝ) (n : ℕ) :
    (stepN f c p (n + 1)).burnoutVel =
      if wOf (stepN f c p (n + 1)) ≤ 0 ∧ (stepN f c p n).burnoutTime = none
      then some (velOf (stepN f c p (n + 1))) else (stepN f c p n).burnoutVel := by
  rw [stepN_succ]
  rfl

lemma burnout_char (f c p : ℝ) (n : ℕ) :
    ((stepN f c p n).burnoutTime = none ∧ (stepN f c p n).burnoutAlt = none ∧
      (stepN f c p n).burnoutVel = none ∧ ∀ k, 1 ≤ k → k ≤ n → 0 < wOf (stepN f c p k)) ∨
    (∃ j, 1 ≤ j ∧ j ≤ n ∧ wOf (stepN f c p j) ≤ 0 ∧
      (∀ k, 1 ≤ k → k < j → 0 < wOf (stepN f c p k)) ∧
      (stepN f c p n).burnoutTime = some ((j : ℝ) * 0.002) ∧
      (stepN f c p n).burnoutAlt = some (altOf (stepN f c p j)) ∧
      (stepN f c p n).burnoutVel = some (velOf (stepN f c p j))) := by
  induction n with
  | zero =>
      left
      refine ⟨rfl, rfl, rfl, ?_⟩
      intro k h1 h2
      omega
  | succ m ih =>
      rcases ih with ⟨hT, hA, hV, hall⟩ | ⟨j, h1j, hjm, hwj, hfirst, hT, hA, hV⟩
      · by_cases hw : wOf (stepN f c p (m + 1)) ≤ 0
        · right
          refine ⟨m + 1, by omega, le_refl _, hw, ?_, ?_, ?_, ?_⟩
          · intro k hk1 hk2
            exact hall k hk1 (by omega)
          · rw [burnout_step_time, if_pos ⟨hw, hT⟩]
            push_cast
            ring_nf
          · rw [burnout_step_alt, if_pos ⟨hw, hT⟩]
          · rw [burnout_step_vel, if_pos ⟨hw, hT⟩]
        · left
          have hcond : ¬ (wOf (stepN f c p (m + 1)) ≤ 0 ∧ (stepN f c p m).burnoutTime = none) := by
            intro hc
            exact hw hc.1
          refine ⟨?_, ?_, ?_, ?_⟩
          · rw [burnout_step_time, if_neg hcond]; exact hT
          · rw [burnout_step_alt, if_neg hcond]; exact hA
          · rw [burnout_step_vel, if_neg hcond]; exact hV
          · intro k hk1 hk2
            rcases Nat.lt_succ_iff_lt_or_eq.mp (Nat.lt_succ_of_le hk2) with h | h
            · exact hall k hk1 (by omega)
            · rw [h]
              exact lt_of_not_le hw
      · right
        have hTsome : (stepN f c p m).burnoutTime ≠ none := by
          rw [hT]
          exact Option.some_ne_none _
        have hcond : ¬ (wOf (stepN f c p (m + 1)) ≤ 0 ∧ (stepN f c p m).burnoutTime = none) := by
          intro hc
          exact hTsome hc.2
        refine ⟨j, h1j, by omega, hwj, hfirst, ?_, ?_, ?_⟩
        · rw [burnout_step_time, if_neg hcond]; exact hT
        · rw [burnout_step_alt, if_neg hcond]; exact hA
        · rw [burnout_step_vel, if_neg hcond]; exact hV

lemma traj_step (f c p : ℝ) (n : ℕ) :
    (stepN f c p (n + 1)).trajectory =
      if sampleCond (n + 1)
      then (stepN f c p n).trajectory ++
        [⟨((n + 1 : ℕ) : ℝ) * 0.002, max 0 (altOf (stepN f c p (n + 1))),
          velOf (stepN f c p (n + 1))⟩]
      else (stepN f c p n).trajectory := by
  rw [stepN_succ, simBody_trajectory, stepN_t, sampleCond]
  have h2 : ((n : ℝ) * 0.002 + 0.002) = ((n + 1 : ℕ) : ℝ) * 0.002 := by push_cast; ring
  rw [h2]
  simp

lemma traj_char (f c p : ℝ) (n : ℕ) :
    (stepN f c p n).trajectory =
      ⟨0, 0, 0⟩ :: ((List.range' 1 n).filter fun k => decide (sampleCond k)).map
        (fun k => ⟨(k : ℝ) * 0.002, max 0 (altOf (stepN f c p k)), velOf (stepN f c p k)⟩) := by
  induction n with
  | zero => simp [stepN, simInit]
  | succ m ih =>
      have hrange : List.range' 1 (m + 1) = List.range' 1 m ++ [1 + m] := by
        have h := (List.range'_concat 1 m : List.range' 1 (m + 1) = List.range' 1 m ++ [1 + 1 * m])
        simpa using h
      rw [traj_step, hrange, List.filter_append, List.map_append]
      by_cases hc : sampleCond (m + 1)
      · rw [if_pos hc, ih]
        have : List.filter (fun k => decide (sampleCond k)) [1 + m] = [1 + m] := by
          simp only [List.filter, decide_eq_true_eq]
          rw [show 1 + m = m + 1 by omega]
          simp [hc]
        rw [this]
        simp only [List.map, List.cons_append, List.nil_append]
        rw [show 1 + m = m + 1 by omega]
      · rw [if_neg hc, ih]
        have : List.filter (fun k => decide (sampleCond k)) [1 + m] = [] := by
          simp only [List.filter, decide_eq_true_eq]
          rw [show 1 + m = m + 1 by omega]
          simp [hc]
        rw [this]
        simp

lemma maxH_step (f c p : ℝ) (n : ℕ) :
    (stepN f c p (n + 1)).maxH =
      if (stepN f c p n).maxH < altOf (stepN f c p (n + 1))
      then altOf (stepN f c p (n + 1)) else (stepN f c p n).maxH := by
  rw [stepN_succ]
  rfl

lemma maxH_nonneg (f c p : ℝ) (n : ℕ) : 0 ≤ (stepN f c p n).maxH := by
  induction n with
  | zero => exact le_refl 0
  | succ m ih =>
      rw [maxH_step]
      split_ifs with h
      · exact le_trans ih (le_of_lt h)
      · exact ih

end BottleRocket

/-! ## Claim C1: the RK4 integrator -/

namespace BottleRocket

lemma zipWith_getD (f : ℝ → ℝ → ℝ) (xs ys : List ℝ) (i : ℕ) (hx : i < xs.length)
    (hy : i < ys.length) :
    (List.zipWith f xs ys).getD i 0 = f (xs.getD i 0) (ys.getD i 0) := by
  induction xs generalizing ys i with
  | nil => simp at hx
  | cons a as ih =>
      cases ys with
      | nil => simp at hy
      | cons b bs =>
          cases i with
          | zero => simp
          | succ j =>
              simp only [List.zipWith_cons_cons, List.getD_cons_succ]
              exact ih bs j (by simpa using hx) (by simpa using hy)

lemma map_getD (g : ℝ → ℝ) (xs : List ℝ) (i : ℕ) (hx : i < xs.length) :
    (xs.map g).getD i 0 = g (xs.getD i 0) := by
  induction xs generalizing i with
  | nil => simp at hx
  | cons a as ih =>
      cases i with
      | zero => simp
      | succ j =>
          simp only [List.map_cons, List.getD_cons_succ]
          exact ih j (by simpa using hx)

lemma zipWith_add_scaled (c : ℝ) (xs ys : List ℝ) :
    List.zipWith (fun yi ki => yi + c * ki) xs ys = vadd xs (smulV c ys) := by
  rw [vadd, smulV, List.zipWith_map_right]

lemma zipWith_scaled_add (c : ℝ) (xs ys : List ℝ) :
    List.zipWith (fun ki yi => c * ki + yi) xs ys = vadd (smulV c xs) ys := by
  rw [vadd, smulV, List.zipWith_map_left]

lemma zipWith_add_vadd (xs ys : List ℝ) :
    List.zipWith (fun a b => a + b) xs ys = vadd xs ys := rfl

lemma rk4Step_eq_spec {P : Type} (f : ℝ → List ℝ → P → List ℝ) (t : ℝ) (y : List ℝ)
    (dt : ℝ) (params : P) :
    rk4Step f t y dt params = rk4SpecStep f t y dt params := by
  simp only [rk4Step, rk4SpecStep, zipWith_add_scaled, zipWith_scaled_add, zipWith_add_vadd]

lemma rk4Step_length {P : Type} (f : ℝ → List ℝ → P → List ℝ) (t : ℝ) (y : List ℝ)
    (dt : ℝ) (params : P)
    (hf : ∀ t' y', y'.length = y.length → (f t' y' params).length = y.length) :
    (rk4Step f t y dt params).length = y.length := by
  rw [rk4Step]
  have h1 : (f t y params).length = y.length := hf t y rfl
  have hs2 : (List.zipWith (fun yi k1i => yi + dt / 2 * k1i) y (f t y params)).length = y.length := by
    rw [List.length_zipWith]; omega
  have h2 := hf (t + dt / 2) _ hs2
  have hs3 : (List.zipWith (fun yi k2i => yi + dt / 2 * k2i) y
      (f (t + dt / 2) (List.zipWith (fun yi k1i => yi + dt / 2 * k1i) y (f t y params)) params)).length
      = y.length := by
    rw [List.length_zipWith, h2]; omega
  have h3 := hf (t + dt / 2) _ hs3
  have hs4 : (List.zipWith (fun yi k3i => yi + dt * k3i) y
      (f (t + dt / 2) (List.zipWith (fun yi k2i => yi + dt / 2 * k2i) y
        (f (t + dt / 2) (List.zipWith (fun yi k1i => yi + dt / 2 * k1i) y (f t y params)) params))
        params)).length = y.length := by
    rw [List.length_zipWith, h3]; omega
  have h4 := hf (t + dt) _ hs4
  simp only [List.length_zipWith]
  omega

end BottleRocket

namespace BottleRocket

/-- C1: for every derivative function `f`, time `t`, state vector `y` of any
length, step `dt` and parameter bundle `params` (passed through to `f`
unchanged in all four stages, as visible in the stage expressions), `rk4Step`
returns `y + dt/6·(k1 + 2k2 + 2k3 + k4)` with `k1 = f(t, y)`,
`k2 = f(t+dt/2, y + dt/2·k1)`, `k3 = f(t+dt/2, y + dt/2·k2)`,
`k4 = f(t+dt, y + dt·k3)`, all arithmetic element-wise; the result has the
state's length and depends only on these inputs (it is a pure function).  The
hypothesis is the spec's caller contract that `f` returns vectors of the
state's length. -/
theorem C1_rk4_formula {P : Type} (f : ℝ → List ℝ → P → List ℝ) (t : ℝ) (y : List ℝ)
    (dt : ℝ) (params : P)
    (hf : ∀ t' y', y'.length = y.length → (f t' y' params).length = y.length) :
    rk4Step f t y dt params = rk4SpecStep f t y dt params ∧
    (rk4Step f t y dt params).length = y.length ∧
    ∀ i, i < y.length →
      (rk4Step f t y dt params).getD i 0 =
        y.getD i 0 + dt / 6 *
          ((f t y params).getD i 0
            + 2 * (f (t + dt / 2) (vadd y (smulV (dt / 2) (f t y params))) params).getD i 0
            + 2 * (f (t + dt / 2)
                (vadd y (smulV (dt / 2)
                  (f (t + dt / 2) (vadd y (smulV (dt / 2) (f t y params))) params))) params).getD i 0
            + (f (t + dt)
                (vadd y (smulV dt
                  (f (t + dt / 2)
                    (vadd y (smulV (dt / 2)
                      (f (t + dt / 2) (vadd y (smulV (dt / 2) (f t y params))) params))) params)))
                params).getD i 0) := by
  refine ⟨rk4Step_eq_spec f t y dt params, rk4Step_length f t y dt params hf, ?_⟩
  intro i hi
  have h1 : (f t y params).length = y.length := hf t y rfl
  have hlen2 : (vadd y (smulV (dt / 2) (f t y params))).length = y.length := by
    rw [vadd, smulV, List.length_zipWith, List.length_map]; omega
  have h2 := hf (t + dt / 2) _ hlen2
  have hlen3 : (vadd y (smulV (dt / 2)
      (f (t + dt / 2) (vadd y (smulV (dt / 2) (f t y params))) params))).length = y.length := by
    rw [vadd, smulV, List.length_zipWith, List.length_map, h2]; omega
  have h3 := hf (t + dt / 2) _ hlen3
  have hlen4 : (vadd y (smulV dt
      (f (t + dt / 2) (vadd y (smulV (dt / 2)
        (f (t + dt / 2) (vadd y (smulV (dt / 2) (f t y params))) params))) params))).length
      = y.length := by
    rw [vadd, smulV, List.length_zipWith, List.length_map, h3]; omega
  have h4 := hf (t + dt) _ hlen4
  rw [rk4Step_eq_spec f t y dt params, rk4SpecStep]
  set k1 := f t y params with hk1
  set s2 := vadd y (smulV (dt / 2) k1) with hs2
  set k2 := f (t + dt / 2) s2 params with hk2
  set s3 := vadd y (smulV (dt / 2) k2) with hs3
  set k3 := f (t + dt / 2) s3 params with hk3
  set s4 := vadd y (smulV dt k3) with hs4
  set k4 := f (t + dt) s4 params with hk4
  have hb0 : i < (smulV (dt / 6) (vadd (vadd k1 (smulV 2 k2)) (vadd (smulV 2 k3) k4))).length := by
    simp only [vadd, smulV, List.length_map, List.length_zipWith, h1, h2, h3, h4]
    omega
  rw [show vadd y (smulV (dt / 6) (vadd (vadd k1 (smulV 2 k2)) (vadd (smulV 2 k3) k4)))
      = List.zipWith (· + ·) y (smulV (dt / 6) (vadd (vadd k1 (smulV 2 k2)) (vadd (smulV 2 k3) k4)))
      from rfl,
    zipWith_getD _ _ _ i hi hb0]
  rw [show smulV (dt / 6) (vadd (vadd k1 (smulV 2 k2)) (vadd (smulV 2 k3) k4))
      = (vadd (vadd k1 (smulV 2 k2)) (vadd (smulV 2 k3) k4)).map (fun x => dt / 6 * x) from rfl,
    map_getD _ _ i (by
      simp only [vadd, smulV, List.length_map, List.length_zipWith, h1, h2, h3, h4]
      omega)]
  rw [show vadd (vadd k1 (smulV 2 k2)) (vadd (smulV 2 k3) k4)
      = List.zipWith (· + ·) (vadd k1 (smulV 2 k2)) (vadd (smulV 2 k3) k4) from rfl,
    zipWith_getD _ _ _ i
      (by simp only [vadd, smulV, List.length_map, List.length_zipWith, h1, h2]; omega)
      (by simp only [vadd, smulV, List.length_map, List.length_zipWith, h3, h4]; omega)]
  rw [show vadd k1 (smulV 2 k2) = List.zipWith (· + ·) k1 (smulV 2 k2) from rfl,
    zipWith_getD _ _ _ i (by omega) (by simp only [smulV, List.length_map, h2]; omega)]
  rw [show vadd (smulV 2 k3) k4 = List.zipWith (· + ·) (smulV 2 k3) k4 from rfl,
    zipWith_getD _ _ _ i (by simp only [smulV, List.length_map, h3]; omega) (by omega)]
  rw [show smulV 2 k2 = k2.map (fun x => 2 * x) from rfl, map_getD _ _ i (by omega)]
  rw [show smulV 2 k3 = k3.map (fun x => 2 * x) from rfl, map_getD _ _ i (by omega)]
  ring

/-- Witness for C1: the identity derivative function on the concrete
two-dimensional state `[1, 2]` with `t = 0`, `dt = 6`. -/
theorem C1_rk4_formula_witness :
    rk4Step (fun _ y (_ : Unit) => y) 0 [(1 : ℝ), 2] 6 () =
      rk4SpecStep (fun _ y (_ : Unit) => y) 0 [(1 : ℝ), 2] 6 () ∧
    (rk4Step (fun _ y (_ : Unit) => y) 0 [(1 : ℝ), 2] 6 ()).length = [(1 : ℝ), 2].length :=
  ⟨(C1_rk4_formula (fun _ y (_ : Unit) => y) 0 [(1 : ℝ), 2] 6 () (fun _ _ h => h)).1,
    (C1_rk4_formula (fun _ y (_ : Unit) => y) 0 [(1 : ℝ), 2] 6 () (fun _ _ h => h)).2.1⟩

end BottleRocket

/-! ## Claims C2, C3, C4, C5, C8, C9 -/

namespace BottleRocket

/-- C2: `runSimulation` advances in fixed 2 ms steps (`t = n·0.002`), executes
exactly `stopIndex` loop iterations, stops at the first step at which the
altitude has gone negative (hence non-positive) or the elapsed time has
reached the 15 s ceiling, and at every earlier step the time budget is still
positive (`t < 15`) and the altitude non-negative.  The returned state is the
state of that stopping step, which may lie below ground. -/
theorem C2_fixed_step_and_termination (f c p : ℝ) :
    runSimulation f c p = stepN f c p (stopIndex f c p) ∧
    (∀ n : ℕ, (stepN f c p n).t = n * 0.002) ∧
    (∀ n, n < stopIndex f c p → (stepN f c p n).t < 15 ∧ 0 ≤ altOf (stepN f c p n)) ∧
    (altOf (stepN f c p (stopIndex f c p)) < 0 ∨ 15 ≤ (stepN f c p (stopIndex f c p)).t) := by
  refine ⟨runSimulation_eq_stepN f c p, stepN_t f c p, fun n hn => guard_of_lt f c p n hn, ?_⟩
  have h := not_guard_stop f c p
  rw [simGuard] at h
  by_cases ht : (stepN f c p (stopIndex f c p)).t < 15
  · left
    exact lt_of_not_le fun hc => h ⟨ht, hc⟩
  · right
    exact le_of_not_lt ht

/-- Witness for C2 at the concrete input `(0.33, 0.4, 60)`: the run equals
the iterated loop body at the stop index, and step 0 (which exists since the
loop always enters) has positive remaining budget. -/
theorem C2_fixed_step_and_termination_witness :
    runSimulation 0.33 0.4 60 = stepN 0.33 0.4 60 (stopIndex 0.33 0.4 60) ∧
    ((stepN 0.33 0.4 60 0).t < 15 ∧ 0 ≤ altOf (stepN 0.33 0.4 60 0)) :=
  ⟨(C2_fixed_step_and_termination 0.33 0.4 60).1,
    (C2_fixed_step_and_termination 0.33 0.4 60).2.2.1 0 (stopIndex_pos 0.33 0.4 60)⟩

/-- C3 (amended): for all parameters, the mass component is non-increasing
from step to step and satisfies the exact invariant
`mass = emptyMass + ρ_water · waterVolume` at every step; from any step at
which the water volume is `≤ 0`, the mass stays constant for the remainder.
(The original claim's `mass ≥ emptyMass` holds only while `waterVolume ≥ 0`:
the final powered RK4 step can overshoot the water volume below zero, taking
the frozen mass strictly below `emptyMass` — see the counterexample.) -/
theorem C3_mass_invariants (f c p : ℝ) (n : ℕ) :
    massOf (stepN f c p (n + 1)) ≤ massOf (stepN f c p n) ∧
    massOf (stepN f c p n) = CONSTANTS.mass_empty + CONSTANTS.rho_water * wOf (stepN f c p n) ∧
    (wOf (stepN f c p n) ≤ 0 → ∀ k, massOf (stepN f c p (n + k)) = massOf (stepN f c p n)) := by
  refine ⟨massOf_mono f c p n, massOf_inv f c p n, fun hw k => ?_⟩
  rw [massOf_inv, massOf_inv, wOf_frozen f c p n hw k]

/-- C4 (amended): for all parameters, the waterVolume component is
non-increasing from step to step; from any step at which it is `≤ 0` it is
frozen at that exact (possibly strictly negative) value for the remainder;
in particular if it is exactly 0 it stays 0.  (The original claim's "once it
reaches 0 it stays 0 / never negative" fails: the final powered RK4 step
jumps the water volume strictly below zero — see the counterexample.) -/
theorem C4_water_monotone_frozen (f c p : ℝ) (n : ℕ) :
    wOf (stepN f c p (n + 1)) ≤ wOf (stepN f c p n) ∧
    (wOf (stepN f c p n) ≤ 0 → ∀ k, wOf (stepN f c p (n + k)) = wOf (stepN f c p n)) ∧
    (wOf (stepN f c p n) = 0 → ∀ k, wOf (stepN f c p (n + k)) = 0) := by
  refine ⟨wOf_mono f c p n, wOf_frozen f c p n, fun h0 k => ?_⟩
  rw [wOf_frozen f c p n (le_of_eq h0) k, h0]

/-- C5: the burnout markers of `runSimulation` are `none` exactly when the
water volume stays positive at every executed step; and whenever `j` is the
first executed step with `waterVolume ≤ 0`, all three markers hold that
step's time, altitude and velocity (recorded once, at the first crossing). -/
theorem C5_burnout_markers (f c p : ℝ) :
    ((runSimulation f c p).burnoutTime = none ↔
      ∀ k, 1 ≤ k → k ≤ stopIndex f c p → 0 < wOf (stepN f c p k)) ∧
    ((runSimulation f c p).burnoutAlt = none ↔ (runSimulation f c p).burnoutTime = none) ∧
    ((runSimulation f c p).burnoutVel = none ↔ (runSimulation f c p).burnoutTime = none) ∧
    ∀ j, 1 ≤ j → j ≤ stopIndex f c p → wOf (stepN f c p j) ≤ 0 →
      (∀ k, 1 ≤ k → k < j → 0 < wOf (stepN f c p k)) →
      (runSimulation f c p).burnoutTime = some ((stepN f c p j).t) ∧
      (runSimulation f c p).burnoutAlt = some (altOf (stepN f c p j)) ∧
      (runSimulation f c p).burnoutVel = some (velOf (stepN f c p j)) := by
  rw [runSimulation_eq_stepN]
  rcases burnout_char f c p (stopIndex f c p) with
    ⟨hT, hA, hV, hall⟩ | ⟨j0, h1j0, hj0N, hwj0, hfirst0, hT, hA, hV⟩
  · refine ⟨⟨fun _ => hall, fun _ => hT⟩, ⟨fun _ => hT, fun _ => hA⟩,
      ⟨fun _ => hT, fun _ => hV⟩, ?_⟩
    intro j hj1 hjN hwj _
    exact absurd (hall j hj1 hjN) (not_lt.mpr hwj)
  · constructor
    · constructor
      · intro h
        rw [hT] at h
        exact (Option.some_ne_none _ h).elim
      · intro h
        exact absurd (h j0 h1j0 hj0N) (not_lt.mpr hwj0)
    constructor
    · constructor
      · intro h
        rw [hA] at h
        exact (Option.some_ne_none _ h).elim
      · intro h
        rw [hT] at h
        exact (Option.some_ne_none _ h).elim
    constructor
    · constructor
      · intro h
        rw [hV] at h
        exact (Option.some_ne_none _ h).elim
      · intro h
        rw [hT] at h
        exact (Option.some_ne_none _ h).elim
    · intro j hj1 hjN hwj hfirstj
      have hjj0 : j = j0 := by
        rcases lt_trichotomy j j0 with hlt | heq | hgt
        · exact absurd (hfirst0 j hj1 hlt) (not_lt.mpr hwj)
        · exact heq
        · exact absurd (hfirstj j0 h1j0 hgt) (not_lt.mpr hwj0)
      subst hjj0
      refine ⟨?_, hA, hV⟩
      rw [stepN_t]
      exact hT

/-- C8: the trajectory of every run starts with the sample `(0, 0, 0)`,
equals the clamped observations at exactly the steps at which
`⌊t·200⌋` (equivalently `⌊t/5 ms⌋`, third conjunct) increases, and its
sample times are strictly increasing. -/
theorem C8_sampling_cadence (f c p : ℝ) :
    (runSimulation f c p).trajectory =
      ⟨0, 0, 0⟩ :: (sampledIdx f c p).map
        (fun k => ⟨(k : ℝ) * 0.002, max 0 (altOf (stepN f c p k)), velOf (stepN f c p k)⟩) ∧
    ((runSimulation f c p).trajectory.map TrajPoint.t).Chain' (· < ·) ∧
    ∀ n : ℕ, sampleCond n ↔
      ⌊((n : ℝ) * 0.002 - 0.002) / 0.005⌋ < ⌊((n : ℝ) * 0.002) / 0.005⌋ := by
  have hchar : (runSimulation f c p).trajectory =
      ⟨0, 0, 0⟩ :: (sampledIdx f c p).map
        (fun k => ⟨(k : ℝ) * 0.002, max 0 (altOf (stepN f c p k)), velOf (stepN f c p k)⟩) := by
    rw [runSimulation_eq_stepN, traj_char, sampledIdx]
  refine ⟨hchar, ?_, ?_⟩
  · rw [hchar, List.map_cons, List.map_map]
    have hcomp : (TrajPoint.t ∘ fun (k : ℕ) =>
        (⟨(k : ℝ) * 0.002, max 0 (altOf (stepN f c p k)), velOf (stepN f c p k)⟩ : TrajPoint))
        = fun (k : ℕ) => (k : ℝ) * 0.002 := rfl
    rw [hcomp]
    rw [List.chain'_iff_pairwise, List.pairwise_cons]
    constructor
    · intro x hx
      obtain ⟨k, hk, rfl⟩ := List.mem_map.mp hx
      have hk1 : 1 ≤ k := by
        have hmem := (List.mem_filter.mp hk).1
        obtain ⟨i, hi, rfl⟩ := List.mem_range'.mp hmem
        omega
      show (⟨0, 0, 0⟩ : TrajPoint).t < (k : ℝ) * 0.002
      show (0 : ℝ) < (k : ℝ) * 0.002
      have : (1 : ℝ) ≤ (k : ℝ) := by exact_mod_cast hk1
      nlinarith
    · refine List.Pairwise.map (fun (k : ℕ) => (k : ℝ) * 0.002)
        (fun a b (hab : a < b) => ?_) ?_
      · show (a : ℝ) * 0.002 < (b : ℝ) * 0.002
        have : (a : ℝ) < (b : ℝ) := Nat.cast_lt.mpr hab
        nlinarith
      · exact (List.pairwise_lt_range' 1 (stopIndex f c p)).sublist (List.filter_sublist _)
  · intro n
    rw [sampleCond]
    have e1 : ((n : ℝ) * 0.002) * 200 = ((n : ℝ) * 0.002) / 0.005 := by
      rw [div_eq_mul_inv]
      norm_num
    have e2 : ((n : ℝ) * 0.002 - 0.002) * 200 = ((n : ℝ) * 0.002 - 0.002) / 0.005 := by
      rw [div_eq_mul_inv]
      norm_num
    rw [e1, e2]

/-- Witness for C8 at the concrete input `(0.33, 0.4, 60)`; the cadence
condition is instantiated at step 3, the first 5 ms boundary. -/
theorem C8_sampling_cadence_witness :
    (runSimulation 0.33 0.4 60).trajectory =
      ⟨0, 0, 0⟩ :: (sampledIdx 0.33 0.4 60).map
        (fun k => ⟨(k : ℝ) * 0.002, max 0 (altOf (stepN 0.33 0.4 60 k)),
          velOf (stepN 0.33 0.4 60 k)⟩) ∧
    (sampleCond 3 ↔ ⌊(((3 : ℕ) : ℝ) * 0.002 - 0.002) / 0.005⌋ < ⌊(((3 : ℕ) : ℝ) * 0.002) / 0.005⌋) :=
  ⟨(C8_sampling_cadence 0.33 0.4 60).1, (C8_sampling_cadence 0.33 0.4 60).2.2 3⟩

/-- C9: emitted samples clamp only the displayed altitude (`max 0 ·`) while
keeping time and velocity unmodified, and the clamp has no effect on the
integration: the state fed to the next RK4 step, and the altitude used by the
loop's stopping test, are the unclamped state components. -/
theorem C9_clamp_display_only (f c p : ℝ) :
    (runSimulation f c p).trajectory =
      ⟨0, 0, 0⟩ :: ((sampledIdx f c p).map (sampleAt f c p)).map
        (fun s => ⟨s.t, max 0 s.h, s.v⟩) ∧
    (∀ n : ℕ, (stepN f c p (n + 1)).y =
      rk4Step rocketODEs ((stepN f c p n).t) ((stepN f c p n).y) 0.002 (simParams f c p)) ∧
    (∀ n, n < stopIndex f c p → 0 ≤ altOf (stepN f c p n)) ∧
    ¬ ((stepN f c p (stopIndex f c p)).t < 15 ∧
        0 ≤ altOf (stepN f c p (stopIndex f c p))) := by
  refine ⟨?_, ?_, fun n hn => (guard_of_lt f c p n hn).2, not_guard_stop f c p⟩
  · rw [runSimulation_eq_stepN, traj_char, List.map_map, sampledIdx]
    congr 1
    apply List.map_congr_left
    intro k hk
    show (⟨(k : ℝ) * 0.002, max 0 (altOf (stepN f c p k)), velOf (stepN f c p k)⟩ : TrajPoint)
      = ⟨(sampleAt f c p k).t, max 0 (sampleAt f c p k).h, (sampleAt f c p k).v⟩
    rw [sampleAt]
    simp [stepN_t]
  · intro n
    rw [stepN_succ, simBody_y]

/-- Witness for C9 at the concrete input `(0.33, 0.4, 60)`: the first
integration step consumes the raw (unclamped) initial state. -/
theorem C9_clamp_display_only_witness :
    (stepN 0.33 0.4 60 1).y =
      rk4Step rocketODEs ((stepN 0.33 0.4 60 0).t) ((stepN 0.33 0.4 60 0).y) 0.002
        (simParams 0.33 0.4 60) :=
  (C9_clamp_display_only 0.33 0.4 60).2.1 0

end BottleRocket

/-! ## Adversarial evaluation A: burnout overshoot within the first step

With `fillRatio = fillTiny = 10⁻⁴` the initial water volume is `8·10⁻⁸ m³`,
and `psiTiny` is chosen so that the stage-1 nozzle exit velocity is exactly 1
(the initial pressure ratio is exactly 1, so the adiabatic `rpow` is exact and
the Bernoulli radicand is exactly 1).  The first RK4 step then drains far more
than the available water: the water volume jumps strictly below zero and the
mass drops strictly below the empty mass. -/

namespace BottleRocket

lemma simParams_V_air_0 (f c p : ℝ) :
    (simParams f c p).V_air_0 = CONSTANTS.tank_volume - f * CONSTANTS.tank_volume := rfl

lemma simParams_P_0_abs (f c p : ℝ) :
    (simParams f c p).P_0_abs = p * 6894.76 + CONSTANTS.P_atm := rfl

lemma A_nozzle_lb : 5.07e-4 < A_nozzle := by
  have hpi := Real.pi_gt_three
  rw [A_nozzle, CONSTANTS.d_nozzle]
  nlinarith

lemma A_nozzle_ub : A_nozzle < 5.4e-4 := by
  have hpi := Real.pi_lt_d2
  rw [A_nozzle, CONSTANTS.d_nozzle]
  nlinarith

lemma denomC_pos : 0 < denomC := by
  rw [denomC, CONSTANTS.rho_water, CONSTANTS.d_nozzle, CONSTANTS.d_bottle]
  norm_num

/-- At the initial water volume the remaining air volume equals `V_air_0`
exactly, so the adiabatic pressure ratio is exactly 1 and the water-volume
derivative evaluates in closed form. -/
lemma dWater_init (f c p : ℝ) (hw : 0 < f * CONSTANTS.tank_volume)
    (hva : CONSTANTS.tank_volume - f * CONSTANTS.tank_volume ≠ 0)
    (hp : 0 < p * 6894.76) :
    dWater (simParams f c p) (f * CONSTANTS.tank_volume)
      = -A_nozzle * Real.sqrt (2 * (p * 6894.76) / denomC) := by
  simp only [dWater]
  rw [if_neg (not_le.mpr hw)]
  have hcond : (simParams f c p).P_0_abs *
      ((simParams f c p).V_air_0 /
        (CONSTANTS.tank_volume - f * CONSTANTS.tank_volume)) ^ CONSTANTS.gamma
      - CONSTANTS.P_atm = p * 6894.76 := by
    rw [simParams_P_0_abs, simParams_V_air_0, div_self hva, Real.one_rpow]
    ring
  rw [hcond, if_neg (not_le.mpr hp)]

lemma psiTiny_pos : 0 < psiTiny := by
  rw [psiTiny]
  norm_num

lemma psiTiny_radicand : 2 * (psiTiny * 6894.76) / denomC = 1 := by
  rw [psiTiny, denomC, CONSTANTS.rho_water, CONSTANTS.d_nozzle, CONSTANTS.d_bottle]
  norm_num

lemma wTiny0 : wOf (stepN fillTiny 0.4 psiTiny 0) = 8e-8 := by
  rw [wOf_zero, fillTiny, CONSTANTS.tank_volume]
  norm_num

lemma dWater_tiny_init : dWater (simParams fillTiny 0.4 psiTiny) (8e-8) = -A_nozzle := by
  have h8 : (8e-8 : ℝ) = fillTiny * CONSTANTS.tank_volume := by
    rw [fillTiny, CONSTANTS.tank_volume]
    norm_num
  rw [h8, dWater_init fillTiny 0.4 psiTiny
    (by rw [fillTiny, CONSTANTS.tank_volume]; norm_num)
    (by rw [fillTiny, CONSTANTS.tank_volume]; norm_num)
    (by nlinarith [psiTiny_pos])]
  rw [psiTiny_radicand, Real.sqrt_one, mul_one]

lemma wTiny1 : wOf (stepN fillTiny 0.4 psiTiny 1) = 8e-8 - 0.001 * A_nozzle := by
  have h0 : (1 : ℕ) = 0 + 1 := rfl
  rw [h0, wOf_succ, wTiny0]
  have hd1 : dWater (simParams fillTiny 0.4 psiTiny) (8e-8 : ℝ) = -A_nozzle := dWater_tiny_init
  have hw2 : w2of (simParams fillTiny 0.4 psiTiny) 0.002 (8e-8 : ℝ) = 8e-8 - 0.001 * A_nozzle := by
    rw [w2of, hd1]
    ring
  have hw2neg : w2of (simParams fillTiny 0.4 psiTiny) 0.002 (8e-8 : ℝ) ≤ 0 := by
    rw [hw2]
    nlinarith [A_nozzle_lb]
  have hd2 : dWater (simParams fillTiny 0.4 psiTiny)
      (w2of (simParams fillTiny 0.4 psiTiny) 0.002 (8e-8 : ℝ)) = 0 :=
    dWater_of_nonpos _ _ hw2neg
  have hw3 : w3of (simParams fillTiny 0.4 psiTiny) 0.002 (8e-8 : ℝ) = 8e-8 := by
    rw [w3of, hd2]
    ring
  have hd3 : dWater (simParams fillTiny 0.4 psiTiny)
      (w3of (simParams fillTiny 0.4 psiTiny) 0.002 (8e-8 : ℝ)) = -A_nozzle := by
    rw [hw3]
    exact dWater_tiny_init
  have hw4 : w4of (simParams fillTiny 0.4 psiTiny) 0.002 (8e-8 : ℝ) = 8e-8 - 0.002 * A_nozzle := by
    rw [w4of, hd3]
    ring
  have hw4neg : w4of (simParams fillTiny 0.4 psiTiny) 0.002 (8e-8 : ℝ) ≤ 0 := by
    rw [hw4]
    nlinarith [A_nozzle_lb]
  have hd4 : dWater (simParams fillTiny 0.4 psiTiny)
      (w4of (simParams fillTiny 0.4 psiTiny) 0.002 (8e-8 : ℝ)) = 0 :=
    dWater_of_nonpos _ _ hw4neg
  rw [wStep, hd1, hd2, hd3, hd4]
  ring

lemma wTiny1_neg : wOf (stepN fillTiny 0.4 psiTiny 1) < -4e-7 := by
  rw [wTiny1]
  nlinarith [A_nozzle_lb]

lemma wTiny1_nonpos : wOf (stepN fillTiny 0.4 psiTiny 1) ≤ 0 :=
  le_of_lt (lt_trans wTiny1_neg (by norm_num))

lemma massTiny1_lt : massOf (stepN fillTiny 0.4 psiTiny 1) < CONSTANTS.mass_empty := by
  rw [massOf_inv, CONSTANTS.rho_water]
  nlinarith [wTiny1_neg]

end BottleRocket

namespace BottleRocket

/-- C3 counterexample: at the admissible input
`(fillRatio, dragCoefficient, launchPressure) = (fillTiny, 0.4, psiTiny)`
(fill ratio in `(0,1)`, positive drag coefficient and pressure), step 1 is
executed by the run (`1 ≤ stopIndex`) and its mass component lies strictly
below the empty mass `0.0765`, refuting `mass(t) ≥ emptyMass at every step`
and `mass = emptyMass once waterVolume ≤ 0`. -/
theorem C3_mass_counterexample :
    0 < fillTiny ∧ fillTiny < 1 ∧ (0 : ℝ) < 0.4 ∧ 0 < psiTiny ∧
    1 ≤ stopIndex fillTiny 0.4 psiTiny ∧
    wOf (stepN fillTiny 0.4 psiTiny 1) ≤ 0 ∧
    massOf (stepN fillTiny 0.4 psiTiny 1) < CONSTANTS.mass_empty :=
  ⟨by rw [fillTiny]; norm_num, by rw [fillTiny]; norm_num, by norm_num, psiTiny_pos,
    stopIndex_pos fillTiny 0.4 psiTiny, wTiny1_nonpos, massTiny1_lt⟩

/-- Witness for the amended C3 at the counterexample input: from step 1
(where `waterVolume ≤ 0`) the mass stays constant one step later. -/
theorem C3_mass_invariants_witness :
    massOf (stepN fillTiny 0.4 psiTiny (1 + 1)) = massOf (stepN fillTiny 0.4 psiTiny 1) :=
  (C3_mass_invariants fillTiny 0.4 psiTiny 1).2.2 wTiny1_nonpos 1

/-- C4 counterexample: at the admissible input `(fillTiny, 0.4, psiTiny)` the
water volume is `8·10⁻⁸` at step 0 and goes strictly below `-4·10⁻⁷` at the
executed step 1 — it crosses zero into (meaningfully, more than five initial
water volumes) negative territory instead of stopping at 0. -/
theorem C4_water_counterexample :
    wOf (stepN fillTiny 0.4 psiTiny 0) = 8e-8 ∧
    1 ≤ stopIndex fillTiny 0.4 psiTiny ∧
    wOf (stepN fillTiny 0.4 psiTiny 1) < -4e-7 :=
  ⟨wTiny0, stopIndex_pos fillTiny 0.4 psiTiny, wTiny1_neg⟩

/-- Witness for the amended C4 at the counterexample input: from step 1
(where `waterVolume ≤ 0`) the water volume stays frozen one step later. -/
theorem C4_water_monotone_frozen_witness :
    wOf (stepN fillTiny 0.4 psiTiny (1 + 1)) = wOf (stepN fillTiny 0.4 psiTiny 1) :=
  (C4_water_monotone_frozen fillTiny 0.4 psiTiny 1).2.1 wTiny1_nonpos 1

/-- Witness for C5 at the input `(fillTiny, 0.4, psiTiny)`: step 1 is the
first executed step with `waterVolume ≤ 0`, and all three burnout markers
hold that step's time, altitude and velocity. -/
theorem C5_burnout_markers_witness :
    (runSimulation fillTiny 0.4 psiTiny).burnoutTime =
      some ((stepN fillTiny 0.4 psiTiny 1).t) ∧
    (runSimulation fillTiny 0.4 psiTiny).burnoutAlt =
      some (altOf (stepN fillTiny 0.4 psiTiny 1)) ∧
    (runSimulation fillTiny 0.4 psiTiny).burnoutVel =
      some (velOf (stepN fillTiny 0.4 psiTiny 1)) :=
  (C5_burnout_markers fillTiny 0.4 psiTiny).2.2.2 1 (le_refl 1)
    (stopIndex_pos fillTiny 0.4 psiTiny) wTiny1_nonpos
    (fun k hk1 hk2 => absurd hk1 (by omega))

end BottleRocket

/-! ## Adversarial evaluation B: a pressure so small the rocket never lifts

With `pressurePSI = psiMicro` the stage-1 exit velocity is exactly `10⁻³`
for every fill ratio, and for every grid fill ratio the tank pressure
provably drops below ambient already at the second RK4 stage (the adiabatic
ratio is below `P_atm/P_0_abs`, shown through `r^1.4 ≤ r` for `0 < r ≤ 1`).
The first step therefore lowers the altitude below zero, the loop stops after
one step, and the recorded maximum altitude is 0 at every grid point. -/

namespace BottleRocket

lemma simParams_C_d (f c p : ℝ) : (simParams f c p).C_d = c := rfl

lemma velOf_zero (f c p : ℝ) : velOf (stepN f c p 0) = 0 := by
  simp [stepN, simInit, velOf]

lemma altOf_zero (f c p : ℝ) : altOf (stepN f c p 0) = 0 := by
  simp [stepN, simInit, altOf]

lemma maxH_zero (f c p : ℝ) : (stepN f c p 0).maxH = 0 := rfl

lemma altOf_succ (f c p : ℝ) (n : ℕ) :
    altOf (stepN f c p (n + 1)) =
      altOf (stepN f c p n) + 0.002 / 6 *
        (velOf (stepN f c p n)
          + 2 * v2of (simParams f c p) 0.002 (velOf (stepN f c p n)) (massOf (stepN f c p n))
              (wOf (stepN f c p n))
          + (2 * v3of (simParams f c p) 0.002 (velOf (stepN f c p n)) (massOf (stepN f c p n))
              (wOf (stepN f c p n))
            + v4of (simParams f c p) 0.002 (velOf (stepN f c p n)) (massOf (stepN f c p n))
              (wOf (stepN f c p n)))) := by
  rw [stepN_succ]
  show (simBody _ _).y.getD 1 0 = _
  rw [simBody_y, stepN_y, rk4Step_rocket]
  simp only [List.getD_cons_succ, List.getD_cons_zero]

lemma A_bottle_ub : A_bottle < 4.43e-3 := by
  have hpi := Real.pi_lt_d2
  rw [A_bottle, CONSTANTS.d_bottle]
  nlinarith

lemma psiMicro_pos : 0 < psiMicro := by
  rw [psiMicro]
  norm_num

lemma psiMicro_radicand : 2 * (psiMicro * 6894.76) / denomC = 1e-6 := by
  rw [psiMicro, denomC, CONSTANTS.rho_water, CONSTANTS.d_nozzle, CONSTANTS.d_bottle]
  norm_num

lemma psiMicro_eps_ub : psiMicro * 6894.76 < 4.93e-4 := by
  rw [psiMicro]
  norm_num

lemma sqrt_micro : Real.sqrt (2 * (psiMicro * 6894.76) / denomC) = 1e-3 := by
  rw [psiMicro_radicand, show (1e-6 : ℝ) = (1e-3) ^ 2 by norm_num,
    Real.sqrt_sq (by norm_num)]

lemma dWater_eqz (p : RocketParams) (w : ℝ) (hw : 0 < w)
    (hd : p.P_0_abs * (p.V_air_0 / (CONSTANTS.tank_volume - w)) ^ CONSTANTS.gamma
      - CONSTANTS.P_atm ≤ 0) :
    dWater p w = 0 := by
  simp only [dWater]
  rw [if_neg (not_le.mpr hw), if_pos hd]

lemma dVel_eqz (p : RocketParams) (v m w : ℝ) (hw : 0 < w)
    (hd : p.P_0_abs * (p.V_air_0 / (CONSTANTS.tank_volume - w)) ^ CONSTANTS.gamma
      - CONSTANTS.P_atm ≤ 0) :
    dVel p v m w = -CONSTANTS.g
      + -0.5 * CONSTANTS.rho_air * p.C_d * A_bottle * v * |v| / m := by
  simp only [dVel]
  rw [if_neg (not_le.mpr hw), if_pos hd]

lemma dVel_init (f c p v m : ℝ) (hw : 0 < f * CONSTANTS.tank_volume)
    (hva : CONSTANTS.tank_volume - f * CONSTANTS.tank_volume ≠ 0)
    (hp : 0 < p * 6894.76) :
    dVel (simParams f c p) v m (f * CONSTANTS.tank_volume)
      = CONSTANTS.rho_water * A_nozzle * Real.sqrt (2 * (p * 6894.76) / denomC)
          * Real.sqrt (2 * (p * 6894.76) / denomC) / m
        - CONSTANTS.g + -0.5 * CONSTANTS.rho_air * c * A_bottle * v * |v| / m := by
  simp only [dVel]
  rw [if_neg (not_le.mpr hw)]
  have hcond : (simParams f c p).P_0_abs *
      ((simParams f c p).V_air_0 /
        (CONSTANTS.tank_volume - f * CONSTANTS.tank_volume)) ^ CONSTANTS.gamma
      - CONSTANTS.P_atm = p * 6894.76 := by
    rw [simParams_P_0_abs, simParams_V_air_0, div_self hva, Real.one_rpow]
    ring
  rw [hcond, if_neg (not_le.mpr hp), simParams_C_d]

/-- For the `psiMicro` pressure, once the air volume has grown by at least
`5·10⁻¹⁰ m³` from its initial value, the tank pressure is at or below
ambient: the adiabatic ratio obeys `ρ^1.4 ≤ ρ ≤ P_atm / P_0_abs`. -/
lemma deltaP_micro_nonpos (r w : ℝ) (hr2 : r ≤ 0.95) (hw : 0 < w)
    (hwle : w ≤ r * CONSTANTS.tank_volume - 5e-10) :
    (simParams r 0.4 psiMicro).P_0_abs *
        ((simParams r 0.4 psiMicro).V_air_0 / (CONSTANTS.tank_volume - w)) ^ CONSTANTS.gamma
      - CONSTANTS.P_atm ≤ 0 := by
  rw [simParams_P_0_abs, simParams_V_air_0, CONSTANTS.gamma, CONSTANTS.P_atm,
    CONSTANTS.tank_volume]
  rw [CONSTANTS.tank_volume] at hwle
  have hr0 : 0 < r := by nlinarith
  have hVa0pos : (0 : ℝ) < 8e-4 - r * 8e-4 := by nlinarith
  have hVapos : (0 : ℝ) < 8e-4 - w := by nlinarith
  have hVagap : 8e-4 - r * 8e-4 + 5e-10 ≤ 8e-4 - w := by nlinarith
  have hratio_pos : 0 < (8e-4 - r * 8e-4) / (8e-4 - w) := div_pos hVa0pos hVapos
  have hratio_le : (8e-4 - r * 8e-4) / (8e-4 - w) ≤ 1 := by
    rw [div_le_one hVapos]
    nlinarith
  have h14 : ((8e-4 - r * 8e-4) / (8e-4 - w) : ℝ) ^ (1.4 : ℝ)
      ≤ ((8e-4 - r * 8e-4) / (8e-4 - w) : ℝ) ^ (1 : ℝ) :=
    Real.rpow_le_rpow_of_exponent_ge hratio_pos hratio_le (by norm_num)
  rw [Real.rpow_one] at h14
  have heps := psiMicro_eps_ub
  have heps0 : 0 < psiMicro * 6894.76 := by nlinarith [psiMicro_pos]
  have hP0pos : (0 : ℝ) < psiMicro * 6894.76 + 101325 := by nlinarith
  have hmain : (psiMicro * 6894.76 + 101325) * ((8e-4 - r * 8e-4) / (8e-4 - w)) ≤ 101325 := by
    rw [← mul_div_assoc, div_le_iff₀ hVapos]
    nlinarith
  nlinarith [mul_le_mul_of_nonneg_left h14 (le_of_lt hP0pos)]

end BottleRocket

namespace BottleRocket

/-- For every fill ratio in `[0.05, 0.95]`, the `psiMicro` pressure drops the
rocket below ground within the first RK4 step: all three later velocity
stages are negative, so the altitude after one step is negative. -/
lemma stepB1 (r : ℝ) (hr1 : 0.05 ≤ r) (hr2 : r ≤ 0.95) :
    altOf (stepN r 0.4 psiMicro 1) < 0 := by
  have hw0pos : 0 < r * CONSTANTS.tank_volume := by
    rw [CONSTANTS.tank_volume]
    linarith only [hr1]
  have hva0 : 0 < CONSTANTS.tank_volume - r * CONSTANTS.tank_volume := by
    rw [CONSTANTS.tank_volume]
    linarith only [hr2]
  have hva : CONSTANTS.tank_volume - r * CONSTANTS.tank_volume ≠ 0 := ne_of_gt hva0
  have hppos : 0 < psiMicro * 6894.76 := by linarith only [psiMicro_pos]
  have hm0lb : 0.1165 ≤ (CONSTANTS.mass_empty + CONSTANTS.rho_water * (r * CONSTANTS.tank_volume)) := by
    rw [CONSTANTS.mass_empty, CONSTANTS.rho_water, CONSTANTS.tank_volume]
    linarith only [hr1]
  have hm0pos : (0 : ℝ) < (CONSTANTS.mass_empty + CONSTANTS.rho_water * (r * CONSTANTS.tank_volume)) := by linarith only [hm0lb]
  have hd1w : dWater (simParams r 0.4 psiMicro) (r * CONSTANTS.tank_volume) = -A_nozzle * 1e-3 := by
    rw [dWater_init r 0.4 psiMicro hw0pos hva hppos, sqrt_micro]
  have hd1v : dVel (simParams r 0.4 psiMicro) 0 (CONSTANTS.mass_empty + CONSTANTS.rho_water * (r * CONSTANTS.tank_volume)) (r * CONSTANTS.tank_volume) = CONSTANTS.rho_water * A_nozzle * 1e-3 * 1e-3 / (CONSTANTS.mass_empty + CONSTANTS.rho_water * (r * CONSTANTS.tank_volume))
      - CONSTANTS.g := by
    rw [dVel_init r 0.4 psiMicro 0 (CONSTANTS.mass_empty + CONSTANTS.rho_water * (r * CONSTANTS.tank_volume)) hw0pos hva hppos, sqrt_micro]
    simp
  have hth1_pos : 0 < CONSTANTS.rho_water * A_nozzle * 1e-3 * 1e-3 / (CONSTANTS.mass_empty + CONSTANTS.rho_water * (r * CONSTANTS.tank_volume)) := by
    apply div_pos _ hm0pos
    rw [CONSTANTS.rho_water]
    linarith only [A_nozzle_pos]
  have hth1_ub : CONSTANTS.rho_water * A_nozzle * 1e-3 * 1e-3 / (CONSTANTS.mass_empty + CONSTANTS.rho_water * (r * CONSTANTS.tank_volume)) ≤ 1e-5 := by
    rw [div_le_iff₀ hm0pos]
    have e1 : CONSTANTS.rho_water * A_nozzle * 1e-3 * 1e-3 = 1000 * A_nozzle * 1e-3 * 1e-3 := by
      rw [CONSTANTS.rho_water]
    rw [e1]
    linarith only [A_nozzle_ub, hm0lb]
  have hd1v_lb : -9.81 < dVel (simParams r 0.4 psiMicro) 0 (CONSTANTS.mass_empty + CONSTANTS.rho_water * (r * CONSTANTS.tank_volume)) (r * CONSTANTS.tank_volume) := by
    rw [hd1v, CONSTANTS.g]
    linarith only [hth1_pos]
  have hd1v_ub : dVel (simParams r 0.4 psiMicro) 0 (CONSTANTS.mass_empty + CONSTANTS.rho_water * (r * CONSTANTS.tank_volume)) (r * CONSTANTS.tank_volume) < -9.8 := by
    rw [hd1v, CONSTANTS.g]
    linarith only [hth1_ub]
  have hv2 : (v2of (simParams r 0.4 psiMicro) 0.002 0 (CONSTANTS.mass_empty + CONSTANTS.rho_water * (r * CONSTANTS.tank_volume)) (r * CONSTANTS.tank_volume)) = 0 + 0.002 / 2 * dVel (simParams r 0.4 psiMicro) 0 (CONSTANTS.mass_empty + CONSTANTS.rho_water * (r * CONSTANTS.tank_volume)) (r * CONSTANTS.tank_volume) := by rw [v2of]
  have hv2lb : -0.00981 < (v2of (simParams r 0.4 psiMicro) 0.002 0 (CONSTANTS.mass_empty + CONSTANTS.rho_water * (r * CONSTANTS.tank_volume)) (r * CONSTANTS.tank_volume)) := by
    rw [hv2]
    linarith only [hd1v_lb]
  have hv2ub : (v2of (simParams r 0.4 psiMicro) 0.002 0 (CONSTANTS.mass_empty + CONSTANTS.rho_water * (r * CONSTANTS.tank_volume)) (r * CONSTANTS.tank_volume)) < -0.0098 := by
    rw [hv2]
    linarith only [hd1v_ub]
  have hv2neg : (v2of (simParams r 0.4 psiMicro) 0.002 0 (CONSTANTS.mass_empty + CONSTANTS.rho_water * (r * CONSTANTS.tank_volume)) (r * CONSTANTS.tank_volume)) < 0 := by linarith only [hv2ub]
  have hm2 : (m2of (simParams r 0.4 psiMicro) 0.002 (CONSTANTS.mass_empty + CONSTANTS.rho_water * (r * CONSTANTS.tank_volume)) (r * CONSTANTS.tank_volume)) = (CONSTANTS.mass_empty + CONSTANTS.rho_water * (r * CONSTANTS.tank_volume)) + 0.002 / 2 * (CONSTANTS.rho_water * (-A_nozzle * 1e-3)) := by
    rw [m2of, hd1w]
  have hm2lb : 0.116 ≤ (m2of (simParams r 0.4 psiMicro) 0.002 (CONSTANTS.mass_empty + CONSTANTS.rho_water * (r * CONSTANTS.tank_volume)) (r * CONSTANTS.tank_volume)) := by
    rw [hm2]
    have e2 : CONSTANTS.rho_water * (-A_nozzle * 1e-3) = -A_nozzle := by
      rw [CONSTANTS.rho_water]
      ring
    rw [e2]
    linarith only [hm0lb, A_nozzle_ub]
  have hm2pos : 0 < (m2of (simParams r 0.4 psiMicro) 0.002 (CONSTANTS.mass_empty + CONSTANTS.rho_water * (r * CONSTANTS.tank_volume)) (r * CONSTANTS.tank_volume)) := by linarith only [hm2lb]
  have hw2 : (w2of (simParams r 0.4 psiMicro) 0.002 (r * CONSTANTS.tank_volume)) = (r * CONSTANTS.tank_volume) + 0.002 / 2 * (-A_nozzle * 1e-3) := by
    rw [w2of, hd1w]
  have hw2pos : 0 < (w2of (simParams r 0.4 psiMicro) 0.002 (r * CONSTANTS.tank_volume)) := by
    rw [hw2, CONSTANTS.tank_volume]
    linarith only [hr1, A_nozzle_ub]
  have hw2le : (w2of (simParams r 0.4 psiMicro) 0.002 (r * CONSTANTS.tank_volume)) ≤ r * CONSTANTS.tank_volume - 5e-10 := by
    rw [hw2]
    linarith only [A_nozzle_lb]
  have hD2 := deltaP_micro_nonpos r (w2of (simParams r 0.4 psiMicro) 0.002 (r * CONSTANTS.tank_volume)) hr2 hw2pos hw2le
  have hd2w : dWater (simParams r 0.4 psiMicro) (w2of (simParams r 0.4 psiMicro) 0.002 (r * CONSTANTS.tank_volume)) = 0 := dWater_eqz _ _ hw2pos hD2
  have hd2v : dVel (simParams r 0.4 psiMicro) (v2of (simParams r 0.4 psiMicro) 0.002 0 (CONSTANTS.mass_empty + CONSTANTS.rho_water * (r * CONSTANTS.tank_volume)) (r * CONSTANTS.tank_volume)) (m2of (simParams r 0.4 psiMicro) 0.002 (CONSTANTS.mass_empty + CONSTANTS.rho_water * (r * CONSTANTS.tank_volume)) (r * CONSTANTS.tank_volume)) (w2of (simParams r 0.4 psiMicro) 0.002 (r * CONSTANTS.tank_volume))
      = -CONSTANTS.g + -0.5 * CONSTANTS.rho_air * 0.4 * A_bottle * (v2of (simParams r 0.4 psiMicro) 0.002 0 (CONSTANTS.mass_empty + CONSTANTS.rho_water * (r * CONSTANTS.tank_volume)) (r * CONSTANTS.tank_volume)) *
          |(v2of (simParams r 0.4 psiMicro) 0.002 0 (CONSTANTS.mass_empty + CONSTANTS.rho_water * (r * CONSTANTS.tank_volume)) (r * CONSTANTS.tank_volume))| / (m2of (simParams r 0.4 psiMicro) 0.002 (CONSTANTS.mass_empty + CONSTANTS.rho_water * (r * CONSTANTS.tank_volume)) (r * CONSTANTS.tank_volume)) := by
    rw [dVel_eqz _ _ _ _ hw2pos hD2, simParams_C_d]
  have habs2 : |(v2of (simParams r 0.4 psiMicro) 0.002 0 (CONSTANTS.mass_empty + CONSTANTS.rho_water * (r * CONSTANTS.tank_volume)) (r * CONSTANTS.tank_volume))| = -(v2of (simParams r 0.4 psiMicro) 0.002 0 (CONSTANTS.mass_empty + CONSTANTS.rho_water * (r * CONSTANTS.tank_volume)) (r * CONSTANTS.tank_volume)) := abs_of_neg hv2neg
  have hv2sq : (v2of (simParams r 0.4 psiMicro) 0.002 0 (CONSTANTS.mass_empty + CONSTANTS.rho_water * (r * CONSTANTS.tank_volume)) (r * CONSTANTS.tank_volume)) * (v2of (simParams r 0.4 psiMicro) 0.002 0 (CONSTANTS.mass_empty + CONSTANTS.rho_water * (r * CONSTANTS.tank_volume)) (r * CONSTANTS.tank_volume)) ≤ 9.63e-5 := by nlinarith only [hv2lb, hv2ub]
  have hdrag2_lb : 0 ≤ -0.5 * CONSTANTS.rho_air * 0.4 * A_bottle * (v2of (simParams r 0.4 psiMicro) 0.002 0 (CONSTANTS.mass_empty + CONSTANTS.rho_water * (r * CONSTANTS.tank_volume)) (r * CONSTANTS.tank_volume)) *
      |(v2of (simParams r 0.4 psiMicro) 0.002 0 (CONSTANTS.mass_empty + CONSTANTS.rho_water * (r * CONSTANTS.tank_volume)) (r * CONSTANTS.tank_volume))| / (m2of (simParams r 0.4 psiMicro) 0.002 (CONSTANTS.mass_empty + CONSTANTS.rho_water * (r * CONSTANTS.tank_volume)) (r * CONSTANTS.tank_volume)) := by
    rw [habs2, CONSTANTS.rho_air]
    apply div_nonneg _ (le_of_lt hm2pos)
    nlinarith only [A_bottle_pos, mul_self_nonneg (v2of (simParams r 0.4 psiMicro) 0.002 0 (CONSTANTS.mass_empty + CONSTANTS.rho_water * (r * CONSTANTS.tank_volume)) (r * CONSTANTS.tank_volume))]
  have hdrag2_ub : -0.5 * CONSTANTS.rho_air * 0.4 * A_bottle * (v2of (simParams r 0.4 psiMicro) 0.002 0 (CONSTANTS.mass_empty + CONSTANTS.rho_water * (r * CONSTANTS.tank_volume)) (r * CONSTANTS.tank_volume)) *
      |(v2of (simParams r 0.4 psiMicro) 0.002 0 (CONSTANTS.mass_empty + CONSTANTS.rho_water * (r * CONSTANTS.tank_volume)) (r * CONSTANTS.tank_volume))| / (m2of (simParams r 0.4 psiMicro) 0.002 (CONSTANTS.mass_empty + CONSTANTS.rho_water * (r * CONSTANTS.tank_volume)) (r * CONSTANTS.tank_volume)) ≤ 1e-5 := by
    rw [habs2, CONSTANTS.rho_air, div_le_iff₀ hm2pos]
    have hAv : A_bottle * ((v2of (simParams r 0.4 psiMicro) 0.002 0 (CONSTANTS.mass_empty + CONSTANTS.rho_water * (r * CONSTANTS.tank_volume)) (r * CONSTANTS.tank_volume)) * (v2of (simParams r 0.4 psiMicro) 0.002 0 (CONSTANTS.mass_empty + CONSTANTS.rho_water * (r * CONSTANTS.tank_volume)) (r * CONSTANTS.tank_volume))) ≤ 4.43e-3 * 9.63e-5 := by
      nlinarith only [A_bottle_ub, A_bottle_pos, hv2sq, mul_self_nonneg (v2of (simParams r 0.4 psiMicro) 0.002 0 (CONSTANTS.mass_empty + CONSTANTS.rho_water * (r * CONSTANTS.tank_volume)) (r * CONSTANTS.tank_volume))]
    linarith only [hAv, hm2lb]
  have hd2v_lb : -9.81 ≤ dVel (simParams r 0.4 psiMicro) (v2of (simParams r 0.4 psiMicro) 0.002 0 (CONSTANTS.mass_empty + CONSTANTS.rho_water * (r * CONSTANTS.tank_volume)) (r * CONSTANTS.tank_volume)) (m2of (simParams r 0.4 psiMicro) 0.002 (CONSTANTS.mass_empty + CONSTANTS.rho_water * (r * CONSTANTS.tank_volume)) (r * CONSTANTS.tank_volume)) (w2of (simParams r 0.4 psiMicro) 0.002 (r * CONSTANTS.tank_volume)) := by
    rw [hd2v, CONSTANTS.g]
    linarith only [hdrag2_lb]
  have hd2v_ub : dVel (simParams r 0.4 psiMicro) (v2of (simParams r 0.4 psiMicro) 0.002 0 (CONSTANTS.mass_empty + CONSTANTS.rho_water * (r * CONSTANTS.tank_volume)) (r * CONSTANTS.tank_volume)) (m2of (simParams r 0.4 psiMicro) 0.002 (CONSTANTS.mass_empty + CONSTANTS.rho_water * (r * CONSTANTS.tank_volume)) (r * CONSTANTS.tank_volume)) (w2of (simParams r 0.4 psiMicro) 0.002 (r * CONSTANTS.tank_volume)) < -9.8 := by
    rw [hd2v, CONSTANTS.g]
    linarith only [hdrag2_ub]
  have hv3 : (v3of (simParams r 0.4 psiMicro) 0.002 0 (CONSTANTS.mass_empty + CONSTANTS.rho_water * (r * CONSTANTS.tank_volume)) (r * CONSTANTS.tank_volume)) = 0 + 0.002 / 2 * dVel (simParams r 0.4 psiMicro) (v2of (simParams r 0.4 psiMicro) 0.002 0 (CONSTANTS.mass_empty + CONSTANTS.rho_water * (r * CONSTANTS.tank_volume)) (r * CONSTANTS.tank_volume)) (m2of (simParams r 0.4 psiMicro) 0.002 (CONSTANTS.mass_empty + CONSTANTS.rho_water * (r * CONSTANTS.tank_volume)) (r * CONSTANTS.tank_volume)) (w2of (simParams r 0.4 psiMicro) 0.002 (r * CONSTANTS.tank_volume)) := by rw [v3of]
  have hv3lb : -0.00981 ≤ (v3of (simParams r 0.4 psiMicro) 0.002 0 (CONSTANTS.mass_empty + CONSTANTS.rho_water * (r * CONSTANTS.tank_volume)) (r * CONSTANTS.tank_volume)) := by
    rw [hv3]
    linarith only [hd2v_lb]
  have hv3ub : (v3of (simParams r 0.4 psiMicro) 0.002 0 (CONSTANTS.mass_empty + CONSTANTS.rho_water * (r * CONSTANTS.tank_volume)) (r * CONSTANTS.tank_volume)) < -0.0098 := by
    rw [hv3]
    linarith only [hd2v_ub]
  have hv3neg : (v3of (simParams r 0.4 psiMicro) 0.002 0 (CONSTANTS.mass_empty + CONSTANTS.rho_water * (r * CONSTANTS.tank_volume)) (r * CONSTANTS.tank_volume)) < 0 := by linarith only [hv3ub]
  have hm3 : (m3of (simParams r 0.4 psiMicro) 0.002 (CONSTANTS.mass_empty + CONSTANTS.rho_water * (r * CONSTANTS.tank_volume)) (r * CONSTANTS.tank_volume)) = (CONSTANTS.mass_empty + CONSTANTS.rho_water * (r * CONSTANTS.tank_volume)) := by
    rw [m3of, hd2w]
    ring
  have hw3 : (w3of (simParams r 0.4 psiMicro) 0.002 (r * CONSTANTS.tank_volume)) = (r * CONSTANTS.tank_volume) := by
    rw [w3of, hd2w]
    ring
  have hd3v : dVel (simParams r 0.4 psiMicro) (v3of (simParams r 0.4 psiMicro) 0.002 0 (CONSTANTS.mass_empty + CONSTANTS.rho_water * (r * CONSTANTS.tank_volume)) (r * CONSTANTS.tank_volume)) (m3of (simParams r 0.4 psiMicro) 0.002 (CONSTANTS.mass_empty + CONSTANTS.rho_water * (r * CONSTANTS.tank_volume)) (r * CONSTANTS.tank_volume)) (w3of (simParams r 0.4 psiMicro) 0.002 (r * CONSTANTS.tank_volume))
      = CONSTANTS.rho_water * A_nozzle * 1e-3 * 1e-3 / (CONSTANTS.mass_empty + CONSTANTS.rho_water * (r * CONSTANTS.tank_volume)) - CONSTANTS.g
        + -0.5 * CONSTANTS.rho_air * 0.4 * A_bottle * (v3of (simParams r 0.4 psiMicro) 0.002 0 (CONSTANTS.mass_empty + CONSTANTS.rho_water * (r * CONSTANTS.tank_volume)) (r * CONSTANTS.tank_volume)) *
            |(v3of (simParams r 0.4 psiMicro) 0.002 0 (CONSTANTS.mass_empty + CONSTANTS.rho_water * (r * CONSTANTS.tank_volume)) (r * CONSTANTS.tank_volume))| / (CONSTANTS.mass_empty + CONSTANTS.rho_water * (r * CONSTANTS.tank_volume)) := by
    rw [hm3, hw3, dVel_init r 0.4 psiMicro (v3of (simParams r 0.4 psiMicro) 0.002 0 (CONSTANTS.mass_empty + CONSTANTS.rho_water * (r * CONSTANTS.tank_volume)) (r * CONSTANTS.tank_volume)) (CONSTANTS.mass_empty + CONSTANTS.rho_water * (r * CONSTANTS.tank_volume)) hw0pos hva hppos, sqrt_micro]
  have habs3 : |(v3of (simParams r 0.4 psiMicro) 0.002 0 (CONSTANTS.mass_empty + CONSTANTS.rho_water * (r * CONSTANTS.tank_volume)) (r * CONSTANTS.tank_volume))| = -(v3of (simParams r 0.4 psiMicro) 0.002 0 (CONSTANTS.mass_empty + CONSTANTS.rho_water * (r * CONSTANTS.tank_volume)) (r * CONSTANTS.tank_volume)) := abs_of_neg hv3neg
  have hv3sq : (v3of (simParams r 0.4 psiMicro) 0.002 0 (CONSTANTS.mass_empty + CONSTANTS.rho_water * (r * CONSTANTS.tank_volume)) (r * CONSTANTS.tank_volume)) * (v3of (simParams r 0.4 psiMicro) 0.002 0 (CONSTANTS.mass_empty + CONSTANTS.rho_water * (r * CONSTANTS.tank_volume)) (r * CONSTANTS.tank_volume)) ≤ 9.63e-5 := by nlinarith only [hv3lb, hv3ub]
  have hdrag3_lb : 0 ≤ -0.5 * CONSTANTS.rho_air * 0.4 * A_bottle * (v3of (simParams r 0.4 psiMicro) 0.002 0 (CONSTANTS.mass_empty + CONSTANTS.rho_water * (r * CONSTANTS.tank_volume)) (r * CONSTANTS.tank_volume)) *
      |(v3of (simParams r 0.4 psiMicro) 0.002 0 (CONSTANTS.mass_empty + CONSTANTS.rho_water * (r * CONSTANTS.tank_volume)) (r * CONSTANTS.tank_volume))| / (CONSTANTS.mass_empty + CONSTANTS.rho_water * (r * CONSTANTS.tank_volume)) := by
    rw [habs3, CONSTANTS.rho_air]
    apply div_nonneg _ (le_of_lt hm0pos)
    nlinarith only [A_bottle_pos, mul_self_nonneg (v3of (simParams r 0.4 psiMicro) 0.002 0 (CONSTANTS.mass_empty + CONSTANTS.rho_water * (r * CONSTANTS.tank_volume)) (r * CONSTANTS.tank_volume))]
  have hdrag3_ub : -0.5 * CONSTANTS.rho_air * 0.4 * A_bottle * (v3of (simParams r 0.4 psiMicro) 0.002 0 (CONSTANTS.mass_empty + CONSTANTS.rho_water * (r * CONSTANTS.tank_volume)) (r * CONSTANTS.tank_volume)) *
      |(v3of (simParams r 0.4 psiMicro) 0.002 0 (CONSTANTS.mass_empty + CONSTANTS.rho_water * (r * CONSTANTS.tank_volume)) (r * CONSTANTS.tank_volume))| / (CONSTANTS.mass_empty + CONSTANTS.rho_water * (r * CONSTANTS.tank_volume)) ≤ 1e-5 := by
    rw [habs3, CONSTANTS.rho_air, div_le_iff₀ hm0pos]
    have hAv : A_bottle * ((v3of (simParams r 0.4 psiMicro) 0.002 0 (CONSTANTS.mass_empty + CONSTANTS.rho_water * (r * CONSTANTS.tank_volume)) (r * CONSTANTS.tank_volume)) * (v3of (simParams r 0.4 psiMicro) 0.002 0 (CONSTANTS.mass_empty + CONSTANTS.rho_water * (r * CONSTANTS.tank_volume)) (r * CONSTANTS.tank_volume))) ≤ 4.43e-3 * 9.63e-5 := by
      nlinarith only [A_bottle_ub, A_bottle_pos, hv3sq, mul_self_nonneg (v3of (simParams r 0.4 psiMicro) 0.002 0 (CONSTANTS.mass_empty + CONSTANTS.rho_water * (r * CONSTANTS.tank_volume)) (r * CONSTANTS.tank_volume))]
    linarith only [hAv, hm0lb]
  have hd3v_neg : dVel (simParams r 0.4 psiMicro) (v3of (simParams r 0.4 psiMicro) 0.002 0 (CONSTANTS.mass_empty + CONSTANTS.rho_water * (r * CONSTANTS.tank_volume)) (r * CONSTANTS.tank_volume)) (m3of (simParams r 0.4 psiMicro) 0.002 (CONSTANTS.mass_empty + CONSTANTS.rho_water * (r * CONSTANTS.tank_volume)) (r * CONSTANTS.tank_volume)) (w3of (simParams r 0.4 psiMicro) 0.002 (r * CONSTANTS.tank_volume)) < 0 := by
    rw [hd3v, CONSTANTS.g]
    linarith only [hth1_ub, hdrag3_ub]
  have hv4 : (v4of (simParams r 0.4 psiMicro) 0.002 0 (CONSTANTS.mass_empty + CONSTANTS.rho_water * (r * CONSTANTS.tank_volume)) (r * CONSTANTS.tank_volume)) = 0 + 0.002 * dVel (simParams r 0.4 psiMicro) (v3of (simParams r 0.4 psiMicro) 0.002 0 (CONSTANTS.mass_empty + CONSTANTS.rho_water * (r * CONSTANTS.tank_volume)) (r * CONSTANTS.tank_volume)) (m3of (simParams r 0.4 psiMicro) 0.002 (CONSTANTS.mass_empty + CONSTANTS.rho_water * (r * CONSTANTS.tank_volume)) (r * CONSTANTS.tank_volume)) (w3of (simParams r 0.4 psiMicro) 0.002 (r * CONSTANTS.tank_volume)) := by rw [v4of]
  have hv4neg : (v4of (simParams r 0.4 psiMicro) 0.002 0 (CONSTANTS.mass_empty + CONSTANTS.rho_water * (r * CONSTANTS.tank_volume)) (r * CONSTANTS.tank_volume)) < 0 := by
    rw [hv4]
    linarith only [hd3v_neg]
  have h01 : (1 : ℕ) = 0 + 1 := rfl
  rw [h01, altOf_succ, altOf_zero, velOf_zero, massOf_zero, wOf_zero]
  linarith only [hv2ub, hv3ub, hv4neg]

end BottleRocket

namespace BottleRocket

lemma stopIndexB (r : ℝ) (hr1 : 0.05 ≤ r) (hr2 : r ≤ 0.95) :
    stopIndex r 0.4 psiMicro = 1 := by
  have halt := stepB1 r hr1 hr2
  apply le_antisymm
  · exact Nat.find_le (fun hg => absurd hg.2 (not_le.mpr halt))
  · exact stopIndex_pos r 0.4 psiMicro

lemma runSimB_maxH (r : ℝ) (hr1 : 0.05 ≤ r) (hr2 : r ≤ 0.95) :
    (runSimulation r 0.4 psiMicro).maxH = 0 := by
  have halt := stepB1 r hr1 hr2
  have hcond : ¬ ((stepN r 0.4 psiMicro 0).maxH < altOf (stepN r 0.4 psiMicro (0 + 1))) := by
    rw [maxH_zero]
    exact not_lt.mpr (le_of_lt halt)
  rw [runSimulation_eq_stepN, stopIndexB r hr1 hr2,
    show (1 : ℕ) = 0 + 1 from rfl, maxH_step, if_neg hcond, maxH_zero]

lemma runSim_maxH_nonneg (f c p : ℝ) : 0 ≤ (runSimulation f c p).maxH := by
  rw [runSimulation_eq_stepN]
  exact maxH_nonneg f c p _

/-! Pure lemmas about the best-pair fold of the optimizer. -/

lemma bestFold_nil (init : ℝ × ℝ) : bestFold init [] = init := rfl

lemma bestFold_cons (init : ℝ × ℝ) (s : OptSample) (l : List OptSample) :
    bestFold init (s :: l) =
      bestFold (if init.2 < s.maxH then (s.ratio, s.maxH) else init) l := rfl

lemma bestFold_snd_le : ∀ (l : List OptSample) (init : ℝ × ℝ),
    init.2 ≤ (bestFold init l).2 := by
  intro l
  induction l with
  | nil => intro init; rw [bestFold_nil]
  | cons s l ih =>
      intro init
      rw [bestFold_cons]
      by_cases hc : init.2 < s.maxH
      · rw [if_pos hc]
        have h2 := ih (s.ratio, s.maxH)
        exact le_trans (le_of_lt hc) h2
      · rw [if_neg hc]
        exact ih init

lemma bestFold_bound : ∀ (l : List OptSample) (init : ℝ × ℝ),
    ∀ s ∈ l, s.maxH ≤ (bestFold init l).2 := by
  intro l
  induction l with
  | nil => intro init s hs; exact absurd hs (List.not_mem_nil s)
  | cons a l ih =>
      intro init s hs
      rw [bestFold_cons]
      rcases List.mem_cons.mp hs with heq | hmem
      · subst heq
        by_cases hc : init.2 < s.maxH
        · rw [if_pos hc]
          exact bestFold_snd_le l (s.ratio, s.maxH)
        · rw [if_neg hc]
          exact le_trans (not_lt.mp hc) (bestFold_snd_le l init)
      · by_cases hc : init.2 < a.maxH
        · rw [if_pos hc]
          exact ih (a.ratio, a.maxH) s hmem
        · rw [if_neg hc]
          exact ih init s hmem

lemma bestFold_stationary : ∀ (l : List OptSample) (init : ℝ × ℝ),
    (bestFold init l).2 = init.2 → bestFold init l = init := by
  intro l
  induction l with
  | nil => intro init _; rfl
  | cons s l ih =>
      intro init heq
      rw [bestFold_cons] at heq ⊢
      by_cases hc : init.2 < s.maxH
      · exfalso
        rw [if_pos hc] at heq
        have h2 := bestFold_snd_le l (s.ratio, s.maxH)
        have : s.maxH ≤ init.2 := by
          rw [← heq]
          exact h2
        exact absurd (lt_of_lt_of_le hc this) (lt_irrefl _)
      · rw [if_neg hc] at heq ⊢
        exact ih init heq

lemma bestFold_keep : ∀ (l : List OptSample) (init : ℝ × ℝ),
    (∀ s ∈ l, s.maxH ≤ init.2) → bestFold init l = init := by
  intro l
  induction l with
  | nil => intro init _; rfl
  | cons s l ih =>
      intro init hall
      rw [bestFold_cons, if_neg (not_lt.mpr (hall s (List.mem_cons_self s l)))]
      exact ih init (fun a ha => hall a (List.mem_cons_of_mem s ha))

lemma bestFold_attained : ∀ (l : List OptSample) (init : ℝ × ℝ),
    bestFold init l = init ∨
      ∃ s ∈ l, (bestFold init l).1 = s.ratio ∧ (bestFold init l).2 = s.maxH := by
  intro l
  induction l with
  | nil => intro init; left; rfl
  | cons s l ih =>
      intro init
      rw [bestFold_cons]
      by_cases hc : init.2 < s.maxH
      · rw [if_pos hc]
        rcases ih (s.ratio, s.maxH) with h | ⟨a, ha, h1, h2⟩
        · right
          exact ⟨s, List.mem_cons_self s l, by rw [h], by rw [h]⟩
        · right
          exact ⟨a, List.mem_cons_of_mem s ha, h1, h2⟩
      · rw [if_neg hc]
        rcases ih init with h | ⟨a, ha, h1, h2⟩
        · left
          exact h
        · right
          exact ⟨a, List.mem_cons_of_mem s ha, h1, h2⟩

lemma find?_cons_true {p : OptSample → Bool} {a : OptSample} {l : List OptSample}
    (h : p a = true) : List.find? p (a :: l) = some a := by
  simp [List.find?_cons, h]

lemma find?_cons_false {p : OptSample → Bool} {a : OptSample} {l : List OptSample}
    (h : p a = false) : List.find? p (a :: l) = List.find? p l := by
  simp [List.find?_cons, h]

lemma bestFold_find : ∀ (l : List OptSample) (bR bH : ℝ),
    bH < (bestFold (bR, bH) l).2 →
      l.find? (fun s => decide ((bestFold (bR, bH) l).2 ≤ s.maxH))
        = some ⟨(bestFold (bR, bH) l).1, (bestFold (bR, bH) l).2⟩ := by
  intro l
  induction l with
  | nil =>
      intro bR bH h
      rw [bestFold_nil] at h
      exact absurd h (lt_irrefl _)
  | cons s l ih =>
      intro bR bH h
      by_cases hc : bH < s.maxH
      · have hc2 : (bR, bH).2 < s.maxH := hc
        rw [bestFold_cons, if_pos hc2] at h ⊢
        have hge : s.maxH ≤ (bestFold (s.ratio, s.maxH) l).2 :=
          bestFold_snd_le l (s.ratio, s.maxH)
        by_cases heq : (bestFold (s.ratio, s.maxH) l).2 = s.maxH
        · have hfix : bestFold (s.ratio, s.maxH) l = (s.ratio, s.maxH) :=
            bestFold_stationary l (s.ratio, s.maxH) heq
          rw [hfix]
          have hp : (fun s1 : OptSample =>
              decide ((s.ratio, s.maxH).2 ≤ s1.maxH)) s = true :=
            decide_eq_true (le_refl s.maxH)
          exact find?_cons_true hp
        · have hgt : s.maxH < (bestFold (s.ratio, s.maxH) l).2 :=
            lt_of_le_of_ne hge (Ne.symm heq)
          have hp : (fun s1 : OptSample =>
              decide ((bestFold (s.ratio, s.maxH) l).2 ≤ s1.maxH)) s = false := by
            rw [decide_eq_false_iff_not]
            exact not_le.mpr hgt
          rw [find?_cons_false hp]
          exact ih s.ratio s.maxH hgt
      · have hc2 : ¬ (bR, bH).2 < s.maxH := hc
        rw [bestFold_cons, if_neg hc2] at h ⊢
        have hlt : s.maxH < (bestFold (bR, bH) l).2 :=
          lt_of_le_of_lt (not_lt.mp hc) h
        have hp : (fun s1 : OptSample =>
            decide ((bestFold (bR, bH) l).2 ≤ s1.maxH)) s = false := by
          rw [decide_eq_false_iff_not]
          exact not_le.mpr hlt
        rw [find?_cons_false hp]
        exact ih bR bH h

end BottleRocket

namespace BottleRocket

/-- `optLoop` factors into the data sweep plus the best-pair fold. -/
lemma optLoop_eq_fold (c p : ℝ) : ∀ (fuel : ℕ) (r bR bH : ℝ) (data : List OptSample),
    optLoop c p fuel r bR bH data =
      ⟨(bestFold (bR, bH) (sweepData c p fuel r)).1,
       (bestFold (bR, bH) (sweepData c p fuel r)).2,
       data ++ sweepData c p fuel r⟩ := by
  intro fuel
  induction fuel with
  | zero =>
      intro r bR bH data
      simp [optLoop, sweepData, bestFold_nil]
  | succ fuel ih =>
      intro r bR bH data
      simp only [optLoop, sweepData]
      by_cases hr : r ≤ 0.95
      · rw [if_pos hr, if_pos hr, bestFold_cons]
        by_cases hb : bH < (runSimulation r c p).maxH
        · have hb2 : (bR, bH).2 < OptSample.maxH ⟨r, (runSimulation r c p).maxH⟩ := hb
          rw [if_pos hb, if_pos hb2, ih]
          simp
        · have hb2 : ¬ (bR, bH).2 < OptSample.maxH ⟨r, (runSimulation r c p).maxH⟩ := hb
          rw [if_neg hb, if_neg hb2, ih]
          simp
      · rw [if_neg hr, if_neg hr, bestFold_nil]
        simp

end BottleRocket

namespace BottleRocket

/-- If `n` further steps of `0.02` stay within the sweep bound, the grid point
`r + 0.02·n` is sampled by the sweep (with its simulated apogee). -/
lemma sweep_mem (c p : ℝ) : ∀ (fuel n : ℕ) (r : ℝ), n < fuel →
    r + 0.02 * (n : ℝ) ≤ 0.95 →
    (⟨r + 0.02 * (n : ℝ), (runSimulation (r + 0.02 * (n : ℝ)) c p).maxH⟩ : OptSample)
      ∈ sweepData c p fuel r := by
  intro fuel
  induction fuel with
  | zero => intro n r hn _; exact absurd hn (Nat.not_lt_zero n)
  | succ fuel ih =>
      intro n r hn hr
      have hn0 : (0 : ℝ) ≤ (n : ℝ) := Nat.cast_nonneg n
      have hr95 : r ≤ 0.95 := by nlinarith
      simp only [sweepData]
      rw [if_pos hr95]
      cases n with
      | zero =>
          have he : r + 0.02 * ((0 : ℕ) : ℝ) = r := by norm_num
          rw [he]
          exact List.mem_cons_self _ _
      | succ m =>
          have he : r + 0.02 * ((m + 1 : ℕ) : ℝ) = (r + 0.02) + 0.02 * (m : ℝ) := by
            push_cast
            ring
          rw [he]
          exact List.mem_cons_of_mem _
            (ih m (r + 0.02) (by omega) (by rw [← he]; exact hr))

/-- At the micro launch pressure every sample of the sweep records apogee `0`. -/
lemma sweep_all_zeroB : ∀ (fuel : ℕ) (r : ℝ), 0.05 ≤ r →
    ∀ s ∈ sweepData 0.4 psiMicro fuel r, s.maxH = 0 := by
  intro fuel
  induction fuel with
  | zero => intro r _ s hs; simp [sweepData] at hs
  | succ fuel ih =>
      intro r hr s hs
      simp only [sweepData] at hs
      by_cases hr95 : r ≤ 0.95
      · rw [if_pos hr95] at hs
        rcases List.mem_cons.mp hs with heq | hmem
        · subst heq
          exact runSimB_maxH r hr hr95
        · exact ih (r + 0.02) (by linarith) s hmem
      · rw [if_neg hr95] at hs
        exact absurd hs (List.not_mem_nil s)

lemma sweep_head_aux (c p r : ℝ) (fuel : ℕ) (hr : r ≤ 0.95) :
    (sweepData c p (fuel + 1) r).head? = some ⟨r, (runSimulation r c p).maxH⟩ := by
  simp only [sweepData]
  rw [if_pos hr]
  rfl

/-- `findOptimal` is the best-pair fold of the sweep data, started from the
defaults `(0.33, 0)` that the source initializes `bestRatio`/`bestH` with. -/
lemma findOptimal_eq (c p : ℝ) : findOptimal c p =
    ⟨(bestFold (0.33, 0) (sweepData c p 100 0.05)).1,
     (bestFold (0.33, 0) (sweepData c p 100 0.05)).2,
     sweepData c p 100 0.05⟩ := by
  rw [findOptimal, optLoop_eq_fold]
  simp

/-- At the micro launch pressure, the sweep never improves on the defaults and
`findOptimal` returns the initial pair `(0.33, 0)` verbatim. -/
lemma findOptimalB : findOptimal 0.4 psiMicro = ⟨0.33, 0, sweepData 0.4 psiMicro 100 0.05⟩ := by
  rw [findOptimal_eq]
  have hall : ∀ s ∈ sweepData 0.4 psiMicro 100 0.05, s.maxH ≤ ((0.33 : ℝ), (0 : ℝ)).2 :=
    fun s hs => le_of_eq (sweep_all_zeroB 100 0.05 (le_refl 0.05) s hs)
  rw [bestFold_keep _ _ hall]

end BottleRocket

namespace BottleRocket

/-- C6: for every drag coefficient and launch pressure, `findOptimal` records
the full sweep, its best altitude bounds every sample from above, and when
positive it is attained and located by the first sample reaching it (strict
`>` tracking); but when no sample beats the initial `bestH = 0` the returned
`bestRatio` is the *initializer* `0.33`, not the ratio of any maximizing
sample — so the claim's "first sample attaining the maximum" clause fails in
the all-zero case (refuted concretely by the counterexample theorem). -/
theorem C6_optimizer (c p : ℝ) :
    (findOptimal c p).data = sweepData c p 100 0.05 ∧
    (findOptimal c p).data.head? = some ⟨0.05, (runSimulation 0.05 c p).maxH⟩ ∧
    0 ≤ (findOptimal c p).bestH ∧
    (∀ s ∈ (findOptimal c p).data, s.maxH ≤ (findOptimal c p).bestH) ∧
    (0 < (findOptimal c p).bestH →
      (∃ s ∈ (findOptimal c p).data,
        s.ratio = (findOptimal c p).bestRatio ∧ s.maxH = (findOptimal c p).bestH) ∧
      (findOptimal c p).data.find?
          (fun s => decide ((findOptimal c p).bestH ≤ s.maxH))
        = some ⟨(findOptimal c p).bestRatio, (findOptimal c p).bestH⟩) ∧
    ((findOptimal c p).bestH = 0 → (findOptimal c p).bestRatio = 0.33) := by
  have hfe := findOptimal_eq c p
  rw [hfe]
  refine ⟨rfl, sweep_head_aux c p 0.05 99 (by norm_num),
    bestFold_snd_le _ ((0.33 : ℝ), (0 : ℝ)),
    fun s hs => bestFold_bound _ ((0.33 : ℝ), (0 : ℝ)) s hs, ?_, ?_⟩
  · intro hpos
    constructor
    · rcases bestFold_attained (sweepData c p 100 0.05) ((0.33 : ℝ), (0 : ℝ)) with
        hfix | ⟨s, hs, h1, h2⟩
      · rw [hfix] at hpos
        exact absurd hpos (lt_irrefl 0)
      · exact ⟨s, hs, h1.symm, h2.symm⟩
    · exact bestFold_find (sweepData c p 100 0.05) 0.33 0 hpos
  · intro h0
    have hk := bestFold_stationary (sweepData c p 100 0.05) ((0.33 : ℝ), (0 : ℝ)) h0
    show (bestFold ((0.33 : ℝ), (0 : ℝ)) (sweepData c p 100 0.05)).1 = 0.33
    rw [hk]

/-- C6 counterexample: at drag `0.4` and the micro launch pressure every
sample of the sweep records apogee `0`; the maximum over the samples is `0`,
first attained at fill ratio `0.05` (the head sample), yet `findOptimal`
returns `bestRatio = 0.33 ≠ 0.05` — not the ratio of the first (nor of any)
maximizing sample. -/
theorem C6_optimizer_counterexample :
    (findOptimal 0.4 psiMicro).bestRatio = 0.33 ∧
    (findOptimal 0.4 psiMicro).bestH = 0 ∧
    (findOptimal 0.4 psiMicro).data.head? = some ⟨0.05, 0⟩ ∧
    (∀ s ∈ (findOptimal 0.4 psiMicro).data, s.maxH = 0) ∧
    (0.33 : ℝ) ≠ 0.05 := by
  have hfe := findOptimalB
  refine ⟨by rw [hfe], by rw [hfe], ?_, ?_, by norm_num⟩
  · rw [hfe]
    show (sweepData 0.4 psiMicro 100 0.05).head? = some ⟨0.05, 0⟩
    rw [show (100 : ℕ) = 99 + 1 from rfl,
      sweep_head_aux 0.4 psiMicro 0.05 99 (by norm_num),
      runSimB_maxH 0.05 (le_refl 0.05) (by norm_num)]
  · rw [hfe]
    exact fun s hs => sweep_all_zeroB 100 0.05 (le_refl 0.05) s hs

/-- C7: in exact real arithmetic the sweep does evaluate both endpoints
`0.05` and `0.95` (and the ideal grid has 46 points including `0.95`), but
under the IEEE-754 double accumulation the source actually performs
(`r += 0.02` with bound `r <= 0.95` and no tolerance), only 45 grid values
are visited and the double nearest `0.95` — the value of the literal `0.95`
in the loop bound — is never one of them: the accumulated value overshoots
the bound, so the `0.95` endpoint demanded by the spec is skipped. -/
theorem C7_grid_endpoints (c p : ℝ) :
    (∃ s ∈ (findOptimal c p).data, s.ratio = 0.05) ∧
    (∃ s ∈ (findOptimal c p).data, s.ratio = 0.95) ∧
    gridPts.length = 46 ∧ (0.95 : ℝ) ∈ gridPts ∧
    (floatGrid.length = 45 ∧ floatGrid.head? = some d005 ∧ d095 ∉ floatGrid) := by
  have hfe := findOptimal_eq c p
  refine ⟨?_, ?_, by rw [gridPts, List.length_map, List.length_range], ?_, by decide⟩
  · rw [hfe]
    have h := sweep_mem c p 100 0 0.05 (by norm_num) (by push_cast; norm_num)
    exact ⟨_, h, by show (0.05 : ℝ) + 0.02 * ((0 : ℕ) : ℝ) = 0.05; push_cast; norm_num⟩
  · rw [hfe]
    have h := sweep_mem c p 100 45 0.05 (by norm_num) (by push_cast; norm_num)
    exact ⟨_, h, by show (0.05 : ℝ) + 0.02 * ((45 : ℕ) : ℝ) = 0.95; push_cast; norm_num⟩
  · exact List.mem_map.mpr ⟨45, List.mem_range.mpr (show (45 : ℕ) < 46 by norm_num),
      by show (0.05 : ℝ) + 0.02 * ((45 : ℕ) : ℝ) = 0.95; push_cast; norm_num⟩

/-- C10: the running-maximum apogee of a run is always nonnegative, and if
every sample of the sweep records apogee `0` then `findOptimal` returns the
defaults `bestH = 0` and `bestRatio = 0.33`; however, contrary to the claim,
`0.33` *is* a point of the ideal swept grid (`0.05 + 14·0.02 = 0.33`
exactly), refuted concretely by the counterexample theorem. -/
theorem C10_default (f c p : ℝ) :
    0 ≤ (runSimulation f c p).maxH ∧
    ((∀ s ∈ (findOptimal c p).data, s.maxH = 0) →
      (findOptimal c p).bestH = 0 ∧ (findOptimal c p).bestRatio = 0.33) ∧
    (0.33 : ℝ) ∈ gridPts := by
  refine ⟨runSim_maxH_nonneg f c p, ?_, ?_⟩
  · intro hall
    have hfe := findOptimal_eq c p
    rw [hfe] at hall ⊢
    have hall2 : ∀ s ∈ sweepData c p 100 0.05, s.maxH ≤ ((0.33 : ℝ), (0 : ℝ)).2 :=
      fun s hs => le_of_eq (hall s hs)
    have hk := bestFold_keep (sweepData c p 100 0.05) ((0.33 : ℝ), (0 : ℝ)) hall2
    constructor
    · show (bestFold ((0.33 : ℝ), (0 : ℝ)) (sweepData c p 100 0.05)).2 = 0
      rw [hk]
    · show (bestFold ((0.33 : ℝ), (0 : ℝ)) (sweepData c p 100 0.05)).1 = 0.33
      rw [hk]
  · exact List.mem_map.mpr ⟨14, List.mem_range.mpr (show (14 : ℕ) < 46 by norm_num),
      by show (0.05 : ℝ) + 0.02 * ((14 : ℕ) : ℝ) = 0.33; push_cast; norm_num⟩

/-- C10 counterexample: `0.33` is the 15th ideal grid point
(`0.05 + 0.02·14`), the sweep at the micro launch pressure actually records
the sample `(0.33, 0)`, the returned defaults coincide with it, and the
IEEE-754 accumulated grid of the source contains the double `0.33` as well —
so the claim's assertion that the default `0.33` is not a point of the swept
grid is false. -/
theorem C10_default_counterexample :
    (0.33 : ℝ) = 0.05 + 0.02 * ((14 : ℕ) : ℝ) ∧
    (∃ s ∈ (findOptimal 0.4 psiMicro).data, s.ratio = 0.33 ∧ s.maxH = 0) ∧
    (findOptimal 0.4 psiMicro).bestRatio = 0.33 ∧
    (findOptimal 0.4 psiMicro).bestH = 0 ∧
    d033 ∈ floatGrid := by
  refine ⟨by push_cast; norm_num, ?_, by rw [findOptimalB], by rw [findOptimalB], by decide⟩
  have hfe := findOptimalB
  rw [hfe]
  have h := sweep_mem 0.4 psiMicro 100 14 0.05 (by norm_num) (by push_cast; norm_num)
  have he : (0.05 : ℝ) + 0.02 * ((14 : ℕ) : ℝ) = 0.33 := by push_cast; norm_num
  rw [he] at h
  rw [runSimB_maxH 0.33 (by norm_num) (by norm_num)] at h
  exact ⟨_, h, rfl, rfl⟩

end BottleRocket
